import Mathlib

/-! Job control of the shell `sh.c`

A shallow embedding of the command interpreter of `sh.c`: the job list and the
job counter are explicit state, every library or system call the interpreter
makes is appended to a trace, and the results of the calls whose outcome is
decided by the operating system are read from an environment record.
-/

namespace Sh

/-! ## The job list of `jobs.h` -/

/-- Modelled from the spec: the status of a job record (`process_state_t` of
`jobs.h`, which is not among the sources); a tracked job is Running or Stopped. -/
inductive ProcessState
  | RUNNING
  | STOPPED
  deriving DecidableEq, Repr

/-- Modelled from the spec: a job record of the job table of `jobs.h` (not among
the sources): job id, process id, status and the command name kept for reporting. -/
structure Job where
  jid : Int
  pid : Int
  state : ProcessState
  command : String
  deriving DecidableEq, Repr

/-- Modelled from the spec: the job table of `jobs.h` (not among the sources),
an ordered sequence of job records. -/
abbrev JobList := List Job

/-- Modelled from the spec: `lookup_process_id(job_id)` of the job table
(`get_job_pid` of `jobs.h`, not among the sources); a miss is the value -1 that
`sh.c` tests for. -/
def get_job_pid (l : JobList) (jid : Int) : Int :=
  match l.find? (fun j => j.jid == jid) with
  | some j => j.pid
  | none => -1

/-- Modelled from the spec: `lookup_job_id(process_id)` of the job table
(`get_job_jid` of `jobs.h`, not among the sources); a miss is the negative value
-1 that `sh.c` tests for. -/
def get_job_jid (l : JobList) (pid : Int) : Int :=
  match l.find? (fun j => j.pid == pid) with
  | some j => j.jid
  | none => -1

/-- Modelled from the spec: the removal of one record from the job table of
`jobs.h` (not among the sources), the first one that satisfies `p`. -/
def removeFirst (p : Job → Bool) : JobList → JobList
  | [] => []
  | j :: js => if p j then js else j :: removeFirst p js

/-- Modelled from the spec: the status update of one record of the job table of
`jobs.h` (not among the sources), the first one that satisfies `p`. -/
def setFirst (p : Job → Bool) (st : ProcessState) : JobList → JobList
  | [] => []
  | j :: js => if p j then { j with state := st } :: js else j :: setFirst p st js

/-- Modelled from the spec: `insert(job_id, process_id, status, command_name)` of
the job table (`add_job` of `jobs.h`, not among the sources). Job ids and process
ids are unique among the tracked records, so an insert that would repeat either
one fails with -1; otherwise the record is appended and the result is 0. -/
def add_job (l : JobList) (jid pid : Int) (st : ProcessState) (command : String) :
    Int × JobList :=
  if l.any (fun j => j.jid == jid || j.pid == pid) then (-1, l)
  else (0, l ++ [{ jid := jid, pid := pid, state := st, command := command }])

/-- Modelled from the spec: `remove_by_job_id(job_id)` of the job table
(`remove_job_jid` of `jobs.h`, not among the sources); -1 when no record has the id. -/
def remove_job_jid (l : JobList) (jid : Int) : Int × JobList :=
  if l.any (fun j => j.jid == jid) then (0, removeFirst (fun j => j.jid == jid) l)
  else (-1, l)

/-- Modelled from the spec: `remove_by_process_id(process_id)` of the job table
(`remove_job_pid` of `jobs.h`, not among the sources); -1 when no record has the
process id. -/
def remove_job_pid (l : JobList) (pid : Int) : Int × JobList :=
  if l.any (fun j => j.pid == pid) then (0, removeFirst (fun j => j.pid == pid) l)
  else (-1, l)

/-- Modelled from the spec: `update_status_by_job_id(job_id, status)` of the job
table (`update_job_jid` of `jobs.h`, not among the sources); -1 when no record has
the id. -/
def update_job_jid (l : JobList) (jid : Int) (st : ProcessState) : Int × JobList :=
  if l.any (fun j => j.jid == jid) then (0, setFirst (fun j => j.jid == jid) st l)
  else (-1, l)

/-- Modelled from the spec: `update_status_by_process_id(process_id, status)` of
the job table (`update_job_pid` of `jobs.h`, not among the sources); -1 when no
record has the process id. -/
def update_job_pid (l : JobList) (pid : Int) (st : ProcessState) : Int × JobList :=
  if l.any (fun j => j.pid == pid) then (0, setFirst (fun j => j.pid == pid) st l)
  else (-1, l)

/-! ## Wait statuses, signals, output lines and the trace -/

/-- The status word filled in by `waitpid`, by the case that the macros of
`<sys/wait.h>` tell apart. -/
inductive WStatus
  | exited (code : Int)
  | signaled (sig : Int)
  | stopped (sig : Int)
  | continued
  deriving DecidableEq, Repr

/-- The macro `WIFEXITED`. -/
def WIFEXITED : WStatus → Bool
  | .exited _ => true
  | _ => false

/-- The macro `WIFSIGNALED`. -/
def WIFSIGNALED : WStatus → Bool
  | .signaled _ => true
  | _ => false

/-- The macro `WIFSTOPPED`. -/
def WIFSTOPPED : WStatus → Bool
  | .stopped _ => true
  | _ => false

/-- The macro `WIFCONTINUED`. -/
def WIFCONTINUED : WStatus → Bool
  | .continued => true
  | _ => false

/-- The macro `WEXITSTATUS`. -/
def WEXITSTATUS : WStatus → Int
  | .exited c => c
  | _ => 0

/-- The macro `WTERMSIG`. -/
def WTERMSIG : WStatus → Int
  | .signaled g => g
  | _ => 0

/-- The macro `WSTOPSIG`. -/
def WSTOPSIG : WStatus → Int
  | .stopped g => g
  | _ => 0

/-- The signals named in `sh.c`. -/
inductive Signal
  | SIGINT
  | SIGTSTP
  | SIGTTOU
  | SIGCONT
  deriving DecidableEq, Repr

/-- The lines that `sh.c` prints on standard output with `printf`, one
constructor per format string, with the values of its `%d` arguments. -/
inductive Msg
  /-- The line `[%d] (%d) terminated with exit status %d` of `reap`. -/
  | terminated_exit (jid pid code : Int)
  /-- The line `[%d] (%d) terminated by signal %d`. -/
  | terminated_signal (jid pid sig : Int)
  /-- The line `[%d] (%d) suspended with exit status %d` of `reap` and `fork_and_exec`. -/
  | suspended_status (jid pid sig : Int)
  /-- The line `[%d] (%d) suspended by signal %d` of `fg`. -/
  | suspended_signal (jid pid sig : Int)
  /-- The line `[%d] (%d) resumed` of `reap`. -/
  | resumed (jid pid : Int)
  /-- The acknowledgment line `[%d] (%d)` of a background launch. -/
  | ack (jid pid : Int)
  deriving DecidableEq, Repr

/-- One entry of the trace: a line written, or a call made, by the interpreter. -/
inductive Event
  /-- A line printed on standard output. -/
  | out (m : Msg)
  /-- A line written to standard error with `fprintf`. -/
  | err (line : String)
  /-- A line written to standard error with `perror`. -/
  | perror (tag : String)
  | cleanup_job_list
  | jobs (l : JobList)
  | add_job (jid pid : Int) (st : ProcessState) (command : String)
  | remove_job_jid (jid : Int)
  | remove_job_pid (pid : Int)
  | update_job_jid (jid : Int) (st : ProcessState)
  | update_job_pid (pid : Int) (st : ProcessState)
  | waitpid (pid : Int)
  | chdir (path : String)
  | link (src dst : String)
  | unlink (path : String)
  | kill (target : Int) (sig : Signal)
  | tcsetpgrp (fd : Int) (pgrp : Int)
  | fork (ret : Int)
  | signal_default (sig : Signal)
  | setpgid (pid pgid : Int)
  | close (fd : Int)
  | open_read (path : Option String)
  | open_truncate (path : Option String)
  | open_append (path : Option String)
  | execv (path : String) (argv : List String)
  deriving DecidableEq, Repr

/-- How control leaves a function of `sh.c`. -/
inductive Outcome
  /-- The function returned to its caller (for a block of statements: control
  goes on with the statement after the block). -/
  | returned
  /-- The process ended in `exit(code)`. -/
  | exited (code : Int)
  /-- A successful `execv` replaced the program of the process. -/
  | replaced
  /-- The C code read through a null pointer or outside an array. -/
  | undefined
  deriving DecidableEq, Repr

/-- The state of the interpreter: the globals `j_list` and `j_cnt`, the trace of
what it has written and called so far, and the results of the coming calls of
`fflush(stdout)` (`true` for success; once the list is used up every call succeeds).
The counter `j_cnt` is an `int` in `sh.c`; here it is an unbounded integer, which
is exact for as long as fewer than `2^31 - 1` job ids have been handed out. -/
structure State where
  j_list : JobList
  j_cnt : Int
  trace : List Event
  flush : List Bool
  deriving DecidableEq, Repr

/-- The state `main` starts from: an empty job list and `j_cnt = 1`. -/
def State.init (flush : List Bool) : State :=
  { j_list := [], j_cnt := 1, trace := [], flush := flush }

/-- Appends one entry to the trace. -/
def State.emit (s : State) (e : Event) : State :=
  { s with trace := s.trace ++ [e] }

/-- The assignment of a new value to the job list `j_list`. -/
@[simp] def State.setJobs (s : State) (l : JobList) : State :=
  { s with j_list := l }

/-- The statement `j_cnt++`. -/
@[simp] def State.bump (s : State) : State :=
  { s with j_cnt := s.j_cnt + 1 }

/-- The state and the way control left. -/
abbrev R := State × Outcome

/-- Sequencing: `k` runs when the first part handed control on. -/
def R.andThen (r : R) (k : State → R) : R :=
  match r with
  | (s, .returned) => k s
  | (s, o) => (s, o)

/-- The results of the system calls of one command, decided by the operating
system: -1 is failure, as tested in `sh.c`. -/
structure Env where
  chdir : Int := 0
  link : Int := 0
  unlink : Int := 0
  kill : Int := 0
  /-- The result of `tcsetpgrp(STDIN_FILENO, child_pid)` in `fg`. -/
  tcsetpgrp_job : Int := 0
  /-- The result of `tcsetpgrp(STDIN_FILENO, getpgid(0))`. -/
  tcsetpgrp_self : Int := 0
  /-- The value of `getpgid(0)`, the process group of the interpreter. -/
  getpgid : Int := 1
  /-- The value `fork` returns in the process that is followed. -/
  fork : Int := 2
  /-- Whether the three `signal(_, SIG_DFL)` calls of `restore_signals` succeed. -/
  signal_int : Bool := true
  signal_tstp : Bool := true
  signal_ttou : Bool := true
  setpgid : Int := 0
  close_in : Int := 0
  open_in : Int := 0
  close_out : Int := 0
  open_out : Int := 0
  execv : Int := 0
  /-- The status reported by the blocking `waitpid(pid, &status, WUNTRACED)`, which
  returns `pid`; `none` when the call fails with -1. -/
  wait : Option WStatus := some (.exited 0)
  deriving DecidableEq, Repr

/-! ## The functions of `sh.c` -/

/-- The call `fflush(stdout)`: whether it succeeded, and the state after it. -/
def fflush (s : State) : Bool × State :=
  match s.flush with
  | [] => (true, s)
  | b :: bs => (b, { s with flush := bs })

/-- The block that `sh.c` repeats after each of its own diagnostics:
`fprintf(stderr, "%s\n", msg)`, then `fflush(stdout)`, and when that fails
`perror("fflush")`, `cleanup_job_list(j_list)` and `exit(EXIT_FAILURE)`. -/
def report (s : State) (msg : String) : R :=
  let s1 := s.emit (.err msg)
  let r := fflush s1
  if r.1 then (r.2, .returned)
  else (((r.2.emit (.perror "fflush")).emit .cleanup_job_list), .exited 1)

/-- The characters `isspace` accepts. -/
def isspace (c : Char) : Bool :=
  c == ' ' || c == '\t' || c == '\n' || c == '\x0b' || c == '\x0c' || c == '\r'

/-- The digit loop of `atoi`. -/
def atoiDigits : List Char → Int → Int
  | [], acc => acc
  | c :: cs, acc =>
    if c.isDigit then atoiDigits cs (acc * 10 + ((c.toNat : Int) - 48)) else acc

/-- The number that the text of a C string denotes for `strtol` in base 10:
leading white space, an optional sign, then the longest run of decimal digits
(0 when there is none). -/
def decimalValue (cs : List Char) : Int :=
  match cs.dropWhile isspace with
  | '-' :: ds => - atoiDigits ds 0
  | '+' :: ds => atoiDigits ds 0
  | ds => atoiDigits ds 0

/-- The C library function `strtol` in base 10, with a `long` of 64 bits: a number
outside the range of `long` is replaced by `LONG_MIN` or `LONG_MAX`. -/
def strtol (cs : List Char) : Int :=
  if decimalValue cs < -9223372036854775808 then -9223372036854775808
  else if 9223372036854775807 < decimalValue cs then 9223372036854775807
  else decimalValue cs

/-- The conversion of a `long` to the `int` of 32 bits that `sh.c` keeps the job
id in: the value modulo `2^32`, between `-2^31` and `2^31 - 1`. -/
def toInt32 (x : Int) : Int := (x + 2147483648) % 4294967296 - 2147483648

/-- The C library function `atoi`, with its result in an `int`: as in the GNU C
library, it is `(int) strtol(nptr, NULL, 10)`, so that `atoi("4294967297")` is 1. -/
def atoi (cs : List Char) : Int := toInt32 (strtol cs)

/-- One turn of the loop of `reap`, for a `waitpid` result `w > 0` with its status. -/
def reap_one (s : State) (w : Int) (status : WStatus) : R :=
  let child_pid := w
  let child_jid := get_job_jid s.j_list child_pid
  R.andThen (if child_jid < 0 then report s "ERROR : get_job_jid failed." else (s, .returned))
  fun s =>
  R.andThen
    (if WIFEXITED status then
      let s := s.emit (.out (.terminated_exit child_jid child_pid (WEXITSTATUS status)))
      let r := remove_job_jid s.j_list child_jid
      let s := (s.emit (.remove_job_jid child_jid)).setJobs r.2
      if r.1 == -1 then report s "ERROR : remove_job_jid failed." else (s, .returned)
    else (s, .returned))
  fun s =>
  R.andThen
    (if WIFSIGNALED status then
      let s := s.emit (.out (.terminated_signal child_jid child_pid (WTERMSIG status)))
      let r := remove_job_jid s.j_list child_jid
      let s := (s.emit (.remove_job_jid child_jid)).setJobs r.2
      if r.1 == -1 then report s "ERROR : remove_job_jid failed." else (s, .returned)
    else (s, .returned))
  fun s =>
  R.andThen
    (if WIFSTOPPED status then
      let s := s.emit (.out (.suspended_status child_jid child_pid (WSTOPSIG status)))
      let r := update_job_jid s.j_list child_jid .STOPPED
      let s := (s.emit (.update_job_jid child_jid .STOPPED)).setJobs r.2
      if r.1 == -1 then report s "ERROR : update_job_jid failed." else (s, .returned)
    else (s, .returned))
  fun s =>
    if WIFCONTINUED status then
      let s := s.emit (.out (.resumed child_jid child_pid))
      let r := update_job_jid s.j_list child_jid .RUNNING
      let s := (s.emit (.update_job_jid child_jid .RUNNING)).setJobs r.2
      if r.1 == -1 then report s "ERROR : update_job_jid failed." else (s, .returned)
    else (s, .returned)

/-- The function `reap`. The list holds what the successive calls of
`waitpid(-1, &status, WNOHANG | WUNTRACED | WCONTINUED)` return, value and
status; after the list the call returns 0 or -1 (nothing more is pending). The
loop goes on while the value is positive; its test `w == -1` inside the loop can
then never hold. -/
def reap (s : State) : List (Int × WStatus) → R
  | [] => (s.emit (.waitpid (-1)), .returned)
  | (w, status) :: rest =>
    let s := s.emit (.waitpid (-1))
    if w > 0 then R.andThen (reap_one s w status) (fun s => reap s rest)
    else (s, .returned)

/-- The function `cd`. -/
def cd (s : State) (toks : List String) (env : Env) : R :=
  match toks[1]? with
  | none => report s "SYNTAX ERROR : Change Directory (cd) failed."
  | some dir =>
    let s := s.emit (.chdir dir)
    if env.chdir == -1 then (s.emit (.perror "cd"), .returned) else (s, .returned)

/-- The function `ln`. -/
def ln (s : State) (toks : List String) (env : Env) : R :=
  match toks[1]?, toks[2]? with
  | some src, some dst =>
    let s := s.emit (.link src dst)
    if env.link == -1 then (s.emit (.perror "ln"), .returned) else (s, .returned)
  | _, _ => report s "SYNTAX ERROR : Link (ln) failed."

/-- The function `rm`. -/
def rm (s : State) (toks : List String) (env : Env) : R :=
  match toks[1]? with
  | none => report s "SYNTAX ERROR : Remove (rm) failed."
  | some path =>
    let s := s.emit (.unlink path)
    if env.unlink == -1 then (s.emit (.perror "rm"), .returned) else (s, .returned)

/-- The function `bg`. Where the C code writes `return` after the block of a
diagnostic, control returns as soon as the block is left. -/
def bg (s : State) (toks : List String) (env : Env) : R :=
  match toks[1]? with
  | none => report s "SYNTAX ERROR : Background (bg) failed."
  | some arg =>
    -- strncmp(toks[1], "%", 1)
    if arg.data.head? != some '%' then
      report s "ERROR : Inputed job does NOT begin with %."
    else
      let child_jid := atoi arg.data.tail
      let child_pid := get_job_pid s.j_list child_jid
      if child_pid == -1 then report s "ERROR : get_job_pid failed."
      else
        let s := s.emit (.kill (-child_pid) .SIGCONT)
        if env.kill == -1 then
          let s := s.emit (.perror "kill")
          let r := fflush s
          if r.1 then (r.2, .returned)
          else (((r.2.emit (.perror "fflush")).emit .cleanup_job_list), .exited 1)
        else
          let r := update_job_jid s.j_list child_jid .RUNNING
          let s := (s.emit (.update_job_jid child_jid .RUNNING)).setJobs r.2
          if r.1 == -1 then report s "ERROR : update_job_jid failed." else (s, .returned)

/-- The function `fg`. -/
def fg (s : State) (toks : List String) (env : Env) : R :=
  match toks[1]? with
  | none => report s "SYNTAX ERROR : Foreground (fg) failed."
  | some arg =>
    if arg.data.head? != some '%' then
      report s "ERROR : Inputed job does NOT begin with %."
    else
      let child_jid := atoi arg.data.tail
      let child_pid := get_job_pid s.j_list child_jid
      if child_pid == -1 then report s "ERROR : get_job_pid failed."
      else
        let s := s.emit (.tcsetpgrp 0 child_pid)
        if env.tcsetpgrp_job == -1 then (s.emit (.perror "tcsetpgrp"), .returned)
        else
          let s := s.emit (.kill (-child_pid) .SIGCONT)
          if env.kill == -1 then (s.emit (.perror "kill"), .returned)
          else
            let r := update_job_jid s.j_list child_jid .RUNNING
            let s := (s.emit (.update_job_jid child_jid .RUNNING)).setJobs r.2
            let s := s.emit (.waitpid child_pid)
            match env.wait with
            | none => (s.emit (.perror "waitpid"), .returned)
            | some status =>
              -- child_pid = (pid_t)w, and waitpid(child_pid, ..) returned child_pid
              R.andThen
                (if WIFSIGNALED status then
                  let s := s.emit (.out (.terminated_signal child_jid child_pid (WTERMSIG status)))
                  let r := remove_job_pid s.j_list child_jid
                  let s := (s.emit (.remove_job_pid child_jid)).setJobs r.2
                  if r.1 == -1 then report s "ERROR : remove_job_pid failed." else (s, .returned)
                else (s, .returned))
              fun s =>
              R.andThen
                (if WIFSTOPPED status then
                  let s := s.emit (.out (.suspended_signal child_jid child_pid (WSTOPSIG status)))
                  let r := update_job_pid s.j_list child_pid .STOPPED
                  let s := (s.emit (.update_job_pid child_pid .STOPPED)).setJobs r.2
                  if r.1 == -1 then report s "ERROR : update_job_pid failed." else (s, .returned)
                else (s, .returned))
              fun s =>
                let s := s.emit (.tcsetpgrp 0 env.getpgid)
                if env.tcsetpgrp_self == -1 then (s.emit (.perror "tcsetpgrp"), .returned)
                else (s, .returned)

/-- The function `restore_signals`, which the child runs first. -/
def restore_signals (s : State) (env : Env) : R :=
  let s := s.emit (.signal_default .SIGINT)
  if !env.signal_int then (s.emit (.perror "signal"), .exited 1)
  else
    let s := s.emit (.signal_default .SIGTSTP)
    if !env.signal_tstp then (s.emit (.perror "signal"), .exited 1)
    else
      let s := s.emit (.signal_default .SIGTTOU)
      if !env.signal_ttou then (s.emit (.perror "signal"), .exited 1)
      else (s, .returned)

/-- The constant `MAX_SIZE`. -/
def MAX_SIZE : Nat := 1024

/-- A block of statements inside a function body: `none` when control goes on
with the statement after the block, `some o` when the block left the function
(`some .returned` for a `return` statement). -/
abbrev Block := State × Option Outcome

/-- Sequencing of a block with the rest of the function body. -/
def Block.andThen (b : Block) (k : State → R) : R :=
  match b with
  | (s, none) => k s
  | (s, some o) => (s, o)

/-- Sequencing of two blocks. -/
def Block.seq (b : Block) (k : State → Block) : Block :=
  match b with
  | (s, none) => k s
  | (s, some o) => (s, some o)

/-- The branch `else if (!f)` of `fork_and_exec`, which the child runs: the
signals, the process group, the redirections and `execv(argv[0], argv)`. -/
def fork_and_exec_child (s : State) (argv0 : String) (argv : List String)
    (in_symbol out_symbol : String) (in_path out_path : Option String) (env : Env) : R :=
  R.andThen (restore_signals s env) fun s =>
  let s := s.emit (.setpgid 0 0)
  if env.setpgid == -1 then (s.emit (.perror "setpgid"), .returned)
  else
  Block.andThen
    (if in_symbol == "<" then
      let s := s.emit (.close 0)
      if env.close_in == -1 then (s.emit (.perror "close"), some .returned)
      else
        let s := s.emit (.open_read in_path)
        if env.open_in == -1 then (s.emit (.perror "open"), some .returned)
        else (s, none)
    else (s, none))
  fun s =>
  Block.andThen
    (if out_symbol == ">" then
      let s := s.emit (.close 1)
      if env.close_out == -1 then (s.emit (.perror "close"), some .returned)
      else
        let s := s.emit (.open_truncate out_path)
        if env.open_out == -1 then (s.emit (.perror "open"), some .returned)
        else (s, none)
    else (s, none))
  fun s =>
  Block.andThen
    (if out_symbol == ">>" then
      let s := s.emit (.close 1)
      if env.close_out == -1 then (s.emit (.perror "close"), some .returned)
      else
        let s := s.emit (.open_append out_path)
        if env.open_out == -1 then (s.emit (.perror "open"), some .returned)
        else (s, none)
    else (s, none))
  fun s =>
    let s := s.emit (.execv argv0 argv)
    if env.execv == -1 then (s.emit (.perror "execv"), .returned)
    else (s, .replaced)

/-- The call `add_job(j_list, j_cnt, pid, state, argv[0])` of `fork_and_exec` with
the block that follows a failure: the diagnostic, and `return` when `fflush` fails. -/
def fork_and_exec_add_job (s : State) (pid : Int) (st : ProcessState) (argv0 : String) :
    Block :=
  let r := add_job s.j_list s.j_cnt pid st argv0
  let s := (s.emit (.add_job s.j_cnt pid st argv0)).setJobs r.2
  if r.1 == -1 then
    let s := s.emit (.err "ERROR : add_job failed.")
    let fl := fflush s
    if fl.1 then (fl.2, none) else (fl.2.emit (.perror "fflush"), some .returned)
  else (s, none)

/-- The branch `if (is_bg)` of `fork_and_exec` in the parent, `f` being the
process id of the child. -/
def fork_and_exec_background (s : State) (f : Int) (argv0 : String) : R :=
  Block.andThen (fork_and_exec_add_job s f .RUNNING argv0) fun s =>
    let s := s.emit (.out (.ack s.j_cnt f))
    (s.bump, .returned)

/-- The branch `else` of `fork_and_exec` in the parent: the foreground wait. -/
def fork_and_exec_foreground (s : State) (f : Int) (argv0 : String) (env : Env) : R :=
  let s := s.emit (.waitpid f)
  match env.wait with
  | none => (s.emit (.perror "waitpid"), .returned)
  | some status =>
    -- w, the value of waitpid(f, ..), is f
    let w := f
    let s :=
      if WIFSIGNALED status then
        s.emit (.out (.terminated_signal s.j_cnt f (WTERMSIG status)))
      else s
    Block.andThen
      (if WIFSTOPPED status then
        let s := s.emit (.out (.suspended_status s.j_cnt f (WSTOPSIG status)))
        Block.seq (fork_and_exec_add_job s w .STOPPED argv0) fun s => (s.bump, none)
      else (s, none))
    fun s =>
      let s := s.emit (.tcsetpgrp 0 env.getpgid)
      if env.tcsetpgrp_self == -1 then (s.emit (.perror "tcsetpgrp"), .returned)
      else (s, .returned)

/-- The function `fork_and_exec`. `argv` holds the entries of the array before its
first null entry, `in_path` and `out_path` are `none` for a null pointer. The
process followed after `fork` is the one in which `fork` returned `env.fork`: the
child for 0, the parent for a positive value. -/
def fork_and_exec (s : State) (argv : List String) (argv_len : Nat)
    (in_symbol out_symbol : String) (in_path out_path : Option String) (env : Env) : R :=
  -- argv[argv_len - 1] is read first: outside the array when argv_len is 0
  if argv_len = 0 then (s, .undefined)
  else
  match argv[argv_len - 1]? with
  -- a null entry: strcmp reads through a null pointer
  | none => (s, .undefined)
  | some last =>
    let is_bg : Bool := last == "&"
    let argv := if is_bg then argv.set (argv_len - 1) "" else argv
    match argv.head? with
    | none => (s, .undefined)
    | some argv0 =>
    let f := env.fork
    let s := s.emit (.fork f)
    if f == -1 then (s.emit (.perror "fork"), .returned)
    else if f == 0 then
      fork_and_exec_child s argv0 argv in_symbol out_symbol in_path out_path env
    else if is_bg then fork_and_exec_background s f argv0
    else fork_and_exec_foreground s f argv0 env

/-- The local variables of `redirection` that its loop updates; `argv` holds the
entries stored so far, so that `argv_index` is its length. The pointers start at
the empty string `"\0"`; `none` is a null pointer. -/
structure RedirVars where
  in_flag : Bool := false
  out_flag : Bool := false
  argv_flag : Bool := false
  argv : List String := []
  in_symbol : String := ""
  out_symbol : String := ""
  in_path : Option String := some ""
  out_path : Option String := some ""
  deriving DecidableEq, Repr

/-- The block `if (!strcmp(toks[i], input))` of the loop of `redirection`, for a
redirection symbol `tok = toks[i]`, with `next` the entry `toks[i + 1]`. -/
def redirection_input (s : State) (v : RedirVars) (tok : String) (next : Option String) :
    State × RedirVars × Outcome :=
  if tok == "<" then
    let r : R :=
      if v.in_flag then report s "SYNTAX ERROR : More than one input file."
      else
        match next with
        | none => report s "SYNTAX ERROR : NO input files."
        | some nx =>
          if nx == "<" || nx == ">" || nx == ">>" then
            report s "SYNTAX ERROR : Input file is a redirection symbol."
          else (s, .returned)
    (r.1, { v with in_flag := true, in_symbol := tok, in_path := next }, r.2)
  else (s, v, .returned)

/-- The block `if (!strcmp(toks[i], output) || !strcmp(toks[i], append))` of the
loop of `redirection`. -/
def redirection_output (s : State) (v : RedirVars) (tok : String) (next : Option String) :
    State × RedirVars × Outcome :=
  if tok == ">" || tok == ">>" then
    let r : R :=
      if v.out_flag then report s "SYNTAX ERROR : More than one output file."
      else
        match next with
        | none => report s "SYNTAX ERROR : NO output files."
        | some nx =>
          if nx == "<" || nx == ">" || nx == ">>" then
            report s "SYNTAX ERROR : Output file is a redirection symbol."
          else (s, .returned)
    (r.1, { v with out_flag := true, out_symbol := tok, out_path := next }, r.2)
  else (s, v, .returned)

/-- The body of the loop of `redirection` for the token `toks[i]`, with `next`
the entry `toks[i + 1]` (`none` when it is null). -/
def redirection_step (s : State) (v : RedirVars) (tok : String) (next : Option String) :
    State × RedirVars × Outcome :=
  if tok != "<" && tok != ">" && tok != ">>" then
    let v := if !v.argv_flag then { v with argv := v.argv ++ [tok] } else v
    (s, { v with argv_flag := false }, .returned)
  else
    let v := { v with argv_flag := true }
    match redirection_input s v tok next with
    | (s, v, .returned) => redirection_output s v tok next
    | r => r

/-- The loop `for (int i = 0; i < (MAX_SIZE / 2); i++)` of `redirection`: the
first argument counts the turns that are left, the list is `toks` from index `i`
up to its null entry. -/
def redirection_loop : Nat → List String → State → RedirVars → State × RedirVars × Outcome
  | 0, _, s, v => (s, v, .returned)
  | _ + 1, [], s, v => (s, v, .returned)
  | n + 1, tok :: rest, s, v =>
    match redirection_step s v tok rest.head? with
    | (s, v, .returned) => redirection_loop n rest s v
    | r => r

/-- The function `redirection`. -/
def redirection (s : State) (toks : List String) (env : Env) : R :=
  match redirection_loop (MAX_SIZE / 2) toks s {} with
  | (s, v, .returned) =>
    fork_and_exec s v.argv v.argv.length v.in_symbol v.out_symbol v.in_path v.out_path env
  | (s, _, o) => (s, o)

/-- The function `commands`. `toks` holds the entries of the array before its null
entry; with no entry at all `toks[0]` is null and `strcmp` reads through it. -/
def commands (s : State) (toks : List String) (env : Env) : R :=
  match toks with
  | [] => (s, .undefined)
  | tok0 :: _ =>
    if tok0 == "cd" then
      -- no return follows cd(toks): control reaches redirection(toks)
      R.andThen (cd s toks env) fun s => redirection s toks env
    else if tok0 == "ln" then ln s toks env
    else if tok0 == "rm" then rm s toks env
    else if tok0 == "exit" then (s.emit .cleanup_job_list, .exited 0)
    else if tok0 == "jobs" then (s.emit (.jobs s.j_list), .returned)
    else if tok0 == "bg" then bg s toks env
    else if tok0 == "fg" then fg s toks env
    else redirection s toks env

/-- Whether a character is one of the delimiters `" \t\n"` of `parse`. -/
def isDelim (c : Char) : Bool := c == ' ' || c == '\t' || c == '\n'

/-- The tokens that the successive calls `strtok(buff, delim)`, `strtok(NULL, delim)`
of `parse` return for the characters of the buffer that are still to be scanned:
the maximal runs of characters that are not delimiters, in order. `cur` holds the
characters of the token being scanned. -/
def strtok_tokens : List Char → List Char → List String
  | [], cur => if cur.isEmpty then [] else [String.mk cur]
  | c :: cs, cur =>
    if isDelim c then
      if cur.isEmpty then strtok_tokens cs [] else String.mk cur :: strtok_tokens cs []
    else strtok_tokens cs (cur ++ [c])

/-- The loop `while (1)` of `parse` and the store `toks[i] = NULL` after it, on the
array `toks` of `MAX_SIZE / 2` entries: `i` is the index of the next store, the
first list holds the tokens that the coming calls of `strtok` return, the second
one the entries stored so far; `none` when a store is outside the array. -/
def parse_loop : List String → Nat → List String → Option (List String)
  | [], i, toks => if i < MAX_SIZE / 2 then some toks else none
  | token :: rest, i, toks =>
    if i < MAX_SIZE / 2 then parse_loop rest (i + 1) (toks ++ [token]) else none

/-- The function `parse`. `buff` holds the bytes that `main` has read, which it
ends with a null byte; a null byte among them ends the string earlier. -/
def parse (s : State) (buff : List Char) (env : Env) : R :=
  match strtok_tokens (buff.takeWhile (fun c => c != '\x00')) [] with
  -- toks[0] = NULL is stored, and parse returns
  | [] => (s, .returned)
  | token :: rest =>
    -- toks[i++] = token with i = 0, then the loop
    match parse_loop rest 1 [token] with
    | none => (s, .undefined)
    | some toks => commands s toks env

/-- Whether a trace entry is a call of `add_job`. -/
def Event.isAddJob : Event → Bool
  | .add_job .. => true
  | _ => false

/-- The number of `add_job` calls in a trace. -/
def inserts (tr : List Event) : Nat := tr.countP Event.isAddJob

/-- Whether neither the job id nor the process id is in the job table: the
condition under which `add_job` accepts the record. -/
def untracked (l : JobList) (jid pid : Int) : Bool :=
  !(l.any fun j => j.jid == jid || j.pid == pid)

/-- The signals sent in a trace: the target and the signal of each `kill` call. -/
def kills (tr : List Event) : List (Int × Signal) :=
  tr.filterMap fun e => match e with
    | .kill target sig => some (target, sig)
    | _ => none

/-- The job list with the status of the records of job id `jid` set to `st` and
every other record as it is. -/
def withStatusOfJid (l : JobList) (jid : Int) (st : ProcessState) : JobList :=
  l.map fun j => if j.jid = jid then { j with state := st } else j

/-- The invariants of the job table in the data model: no job id and no process
id is shared by two records, and both are positive. -/
structure WellFormed (l : JobList) : Prop where
  jid_nodup : (l.map Job.jid).Nodup
  pid_nodup : (l.map Job.pid).Nodup
  jid_pos : ∀ j ∈ l, 0 < j.jid
  pid_pos : ∀ j ∈ l, 0 < j.pid

/-- The job list after one child state change, in the words of the specification
of the Reaper: exited or signaled removes the record of that process id, stopped
sets the status of that record to Stopped, continued sets it to Running; the
records of other process ids are left as they are. -/
def applyChange (l : JobList) (c : Int × WStatus) : JobList :=
  match c.2 with
  | .exited _ => l.filter fun j => j.pid != c.1
  | .signaled _ => l.filter fun j => j.pid != c.1
  | .stopped _ => l.map fun j => if j.pid = c.1 then { j with state := .STOPPED } else j
  | .continued => l.map fun j => if j.pid = c.1 then { j with state := .RUNNING } else j

/-- Whether every change of the sequence is for a process id that has a job record
at the time the change is handled. -/
def tracked : JobList → List (Int × WStatus) → Bool
  | _, [] => true
  | l, c :: cs => l.any (fun j => j.pid == c.1) && tracked (applyChange l c) cs

/-- What `reap` writes and calls for one change once the job id is known: the
notification line, then the call that removes or updates the record. -/
def handling (jid pid : Int) : WStatus → List Event
  | .exited code => [.out (.terminated_exit jid pid code), .remove_job_jid jid]
  | .signaled sig => [.out (.terminated_signal jid pid sig), .remove_job_jid jid]
  | .stopped sig => [.out (.suspended_status jid pid sig), .update_job_jid jid .STOPPED]
  | .continued => [.out (.resumed jid pid), .update_job_jid jid .RUNNING]

/-- The diagnostic of `reap` for the table call of a change when that call fails. -/
def handlingFailure : WStatus → String
  | .exited _ => "ERROR : remove_job_jid failed."
  | .signaled _ => "ERROR : remove_job_jid failed."
  | .stopped _ => "ERROR : update_job_jid failed."
  | .continued => "ERROR : update_job_jid failed."

/-- The child state change that a notification line of `reap` reports. -/
def Msg.change : Msg → Option (Int × WStatus)
  | .terminated_exit _ pid code => some (pid, .exited code)
  | .terminated_signal _ pid sig => some (pid, .signaled sig)
  | .suspended_status _ pid sig => some (pid, .stopped sig)
  | .resumed _ pid => some (pid, .continued)
  | _ => none

/-- The child state changes reported on standard output in a trace, in order. -/
def reported (tr : List Event) : List (Int × WStatus) :=
  tr.filterMap fun e => match e with
    | .out m => m.change
    | _ => none

/-- The lines written to standard error in a trace, in order. -/
def diagnostics (tr : List Event) : List Event :=
  tr.filter fun e => match e with
    | .err _ => true
    | .perror _ => true
    | _ => false

/-- The calls that change the job table in a trace, in order. -/
def tableCalls (tr : List Event) : List Event :=
  tr.filter fun e => match e with
    | .add_job .. => true
    | .remove_job_jid _ => true
    | .remove_job_pid _ => true
    | .update_job_jid .. => true
    | .update_job_pid .. => true
    | _ => false

/-- The job ids printed in the acknowledgment lines `[%d] (%d)` of the background
launches of a trace, in order: the job ids assigned to the background launches. -/
def acks (tr : List Event) : List Int :=
  tr.filterMap fun e => match e with
    | .out (.ack jid _) => some jid
    | _ => none

/-- The job ids passed to `add_job` in a trace, in the order of the calls. -/
def addIds (tr : List Event) : List Int :=
  tr.filterMap fun e => match e with
    | .add_job jid _ _ _ => some jid
    | _ => none

/-- From `s` to `x` the job counter, the acknowledgment lines and the calls of
`add_job` are the same, and every job id of the table of `x` is a job id of the
table of `s`. -/
def Quiet (s x : State) : Prop :=
  x.j_cnt = s.j_cnt ∧ acks x.trace = acks s.trace ∧
    x.j_list.map Job.jid ⊆ s.j_list.map Job.jid ∧ addIds x.trace = addIds s.trace

/-- From `s` to `x` at most one call of `add_job` was made, with the job id
`s.j_cnt`, and either nothing was assigned (counter, acknowledgment lines and job
ids of the table as they were), or the job id `s.j_cnt` was: the counter went up
by one, at most one acknowledgment line was printed, for `s.j_cnt`, and the only
job id the table can have gained is `s.j_cnt`. -/
def Grows (s x : State) : Prop :=
  (addIds x.trace = addIds s.trace ∨ addIds x.trace = addIds s.trace ++ [s.j_cnt]) ∧
  ((x.j_cnt = s.j_cnt ∧ acks x.trace = acks s.trace ∧
      x.j_list.map Job.jid ⊆ s.j_list.map Job.jid) ∨
    (x.j_cnt = s.j_cnt + 1 ∧
      (acks x.trace = acks s.trace ∨ acks x.trace = acks s.trace ++ [s.j_cnt]) ∧
      x.j_list.map Job.jid ⊆ s.j_list.map Job.jid ++ [s.j_cnt]))

/-- Whether a token is one of the redirection symbols `<`, `>` and `>>`. -/
def isRedirection (t : String) : Bool := t == "<" || t == ">" || t == ">>"

/-- Whether a token is one of the output symbols `>` and `>>`. -/
def isOutput (t : String) : Bool := t == ">" || t == ">>"

/-- Whether a token is the input symbol `<`. -/
def isInput (t : String) : Bool := t == "<"

/-- The token list with each redirection symbol and the one token that follows it
removed, the other tokens in their order. -/
def withoutRedirections : List String → List String
  | [] => []
  | [t] => if isRedirection t then [] else [t]
  | t :: u :: rest =>
    if isRedirection t then withoutRedirections rest else t :: withoutRedirections (u :: rest)

/-- The token that follows the first token that satisfies `p`. -/
def tokenAfter (p : String → Bool) : List String → Option String
  | [] => none
  | t :: rest => if p t then rest.head? else tokenAfter p rest

/-- Whether every redirection symbol of the list is immediately followed by a
token, and that token is not a redirection symbol. -/
def redirectionsHaveTargets : List String → Bool
  | [] => true
  | [t] => !isRedirection t
  | t :: u :: rest =>
    (!isRedirection t || !isRedirection u) && redirectionsHaveTargets (u :: rest)

/-- The values of the variables of `redirection` after its loop has gone from the
values `v` through tokens `toks` whose redirections are well placed: what the
claim on the arguments of `fork_and_exec` says, started from `v`. -/
def RedirVars.after (v : RedirVars) (toks : List String) : RedirVars :=
  { in_flag := v.in_flag || toks.any isInput
    out_flag := v.out_flag || toks.any isOutput
    argv_flag := false
    argv := v.argv ++ withoutRedirections toks
    in_symbol := if toks.any isInput then "<" else v.in_symbol
    out_symbol := (toks.find? isOutput).getD v.out_symbol
    in_path := if toks.any isInput then tokenAfter isInput toks else v.in_path
    out_path := if toks.any isOutput then tokenAfter isOutput toks else v.out_path }

/-! ## The dispatcher and the child after a failed `execv` -/

/-- C1: `commands` has no `return` after `cd(toks)`, unlike its other built-in
branches, so control falls through to `redirection(toks)`: for the line `cd /tmp`
the interpreter changes directory and then forks, waits for the child and reclaims
the terminal, exactly as for an external program. -/
theorem commands_cd_falls_through_to_launcher :
    commands (State.init []) ["cd", "/tmp"] {} =
      ({ j_list := [], j_cnt := 1,
         trace := [.chdir "/tmp", .fork 2, .waitpid 2, .tcsetpgrp 0 1],
         flush := [] }, .returned) ∧
    commands (State.init []) ["cd", "/tmp"] { fork := 0 } =
      ({ j_list := [], j_cnt := 1,
         trace := [.chdir "/tmp", .fork 0, .signal_default .SIGINT,
                   .signal_default .SIGTSTP, .signal_default .SIGTTOU, .setpgid 0 0,
                   .execv "cd" ["cd", "/tmp"]],
         flush := [] }, .replaced) := by
  constructor <;> decide

/-- C2: in the child (`fork` returned 0), when `execv` fails `fork_and_exec` calls
`perror("execv")` and executes `return`: the child process is not terminated, the
function returns to its caller, whatever the state and the program name are, and\nso does `commands`, back into the loop of `main`. -/
theorem fork_and_exec_child_returns_after_failed_execv (s : State) (prog : String) :
    fork_and_exec s [prog] 1 "" "" (some "") (some "") { fork := 0, execv := -1 } =
      ({ s with
         trace := s.trace ++
           [.fork 0, .signal_default .SIGINT, .signal_default .SIGTSTP,
            .signal_default .SIGTTOU, .setpgid 0 0,
            .execv (if prog = "&" then "" else prog) [if prog = "&" then "" else prog],
            .perror "execv"] }, .returned) ∧
    (commands s ["/bin/nonexistent"] { fork := 0, execv := -1 }).2 = .returned := by
  constructor
  · by_cases h : prog = "&"
    · subst h
      simp [fork_and_exec, fork_and_exec_child, restore_signals, R.andThen, Block.andThen, State.emit]
    · simp [fork_and_exec, fork_and_exec_child, restore_signals, R.andThen, Block.andThen, State.emit, h]
  · simp +decide [commands, redirection, redirection_loop, redirection_step, redirection_input,
      redirection_output, MAX_SIZE,
      fork_and_exec, fork_and_exec_child, restore_signals, R.andThen, Block.andThen, State.emit]

/-! ## Reclaiming the terminal, and `fg` on a job that ends -/

/-- C3: the early `return` statements skip `tcsetpgrp(STDIN_FILENO, getpgid(0))`.
With job 1 (process 100) in the table and 500 the process group of the
interpreter, `fg %1` hands the terminal to group 100 and then returns without any
call that gives it back when `waitpid` fails, and also when `kill` fails; the
foreground path of `fork_and_exec` returns without the call when `waitpid` fails. -/
theorem terminal_not_reclaimed_on_early_return :
    fg { j_list := [⟨1, 100, .STOPPED, "/bin/sleep"⟩], j_cnt := 2, trace := [], flush := [] }
        ["fg", "%1"] { getpgid := 500, wait := none } =
      ({ j_list := [⟨1, 100, .RUNNING, "/bin/sleep"⟩], j_cnt := 2,
         trace := [.tcsetpgrp 0 100, .kill (-100) .SIGCONT, .update_job_jid 1 .RUNNING,
                   .waitpid 100, .perror "waitpid"],
         flush := [] }, .returned) ∧
    fg { j_list := [⟨1, 100, .STOPPED, "/bin/sleep"⟩], j_cnt := 2, trace := [], flush := [] }
        ["fg", "%1"] { getpgid := 500, kill := -1 } =
      ({ j_list := [⟨1, 100, .STOPPED, "/bin/sleep"⟩], j_cnt := 2,
         trace := [.tcsetpgrp 0 100, .kill (-100) .SIGCONT, .perror "kill"],
         flush := [] }, .returned) ∧
    fork_and_exec (State.init []) ["/bin/cat"] 1 "" "" (some "") (some "")
        { getpgid := 500, fork := 100, wait := none } =
      ({ j_list := [], j_cnt := 1,
         trace := [.fork 100, .waitpid 100, .perror "waitpid"],
         flush := [] }, .returned) := by
  refine ⟨?_, ?_, ?_⟩ <;> decide

/-- C4: `fg` has no branch for a job that exited normally, and for a job killed by
a signal it passes the job id to `remove_job_pid`. With job 1 (process 100) in the
table, after `fg %1` and the exit of the job, or its death by signal 9, the record
of job 1 is still in the table, marked Running; the terminal is handed back to the
group 500 of the interpreter in both cases. -/
theorem fg_keeps_record_of_ended_job :
    fg { j_list := [⟨1, 100, .STOPPED, "/bin/sleep"⟩], j_cnt := 2, trace := [], flush := [] }
        ["fg", "%1"] { getpgid := 500, wait := some (.exited 0) } =
      ({ j_list := [⟨1, 100, .RUNNING, "/bin/sleep"⟩], j_cnt := 2,
         trace := [.tcsetpgrp 0 100, .kill (-100) .SIGCONT, .update_job_jid 1 .RUNNING,
                   .waitpid 100, .tcsetpgrp 0 500],
         flush := [] }, .returned) ∧
    fg { j_list := [⟨1, 100, .STOPPED, "/bin/sleep"⟩], j_cnt := 2, trace := [], flush := [] }
        ["fg", "%1"] { getpgid := 500, wait := some (.signaled 9) } =
      ({ j_list := [⟨1, 100, .RUNNING, "/bin/sleep"⟩], j_cnt := 2,
         trace := [.tcsetpgrp 0 100, .kill (-100) .SIGCONT, .update_job_jid 1 .RUNNING,
                   .waitpid 100, .out (.terminated_signal 1 100 9), .remove_job_pid 1,
                   .err "ERROR : remove_job_pid failed.", .tcsetpgrp 0 500],
         flush := [] }, .returned) := by
  constructor <;> decide

/-! ## Launches in the parent -/

/-- The call `fflush(stdout)` leaves the trace as it is. -/
@[simp] theorem fflush_trace (s : State) : (fflush s).2.trace = s.trace := by
  unfold fflush; split <;> rfl

/-- The call `fflush(stdout)` leaves the job list as it is. -/
@[simp] theorem fflush_j_list (s : State) : (fflush s).2.j_list = s.j_list := by
  unfold fflush; split <;> rfl

/-- The call `fflush(stdout)` leaves the job counter as it is. -/
@[simp] theorem fflush_j_cnt (s : State) : (fflush s).2.j_cnt = s.j_cnt := by
  unfold fflush; split <;> rfl

/-- The first entry of `argv` after the write of `fork_and_exec` to its last entry. -/
theorem head_after_set (argv : List String) (n : Nat) (last : String)
    (h : argv[n]? = some last) (b : Bool) :
    ∃ a0, (if b then argv.set n "" else argv).head? = some a0 := by
  cases argv with
  | nil => simp at h
  | cons a rest =>
    cases b
    · exact ⟨a, by simp⟩
    · cases n with
      | zero => exact ⟨"", by simp⟩
      | succ m => exact ⟨a, by simp⟩

/-- C6: in the parent, `fork_and_exec` calls `add_job` once when the last entry of
`argv` is `&` or the foreground wait reports a stop, and not at all otherwise. In
those two cases the job table after the launch is the table before it with the
record (`j_cnt`, child, Running or Stopped, `argv[0]`) inserted at its end (the
table as it was when `add_job` refuses the record because its job id or process id
is tracked already); in every other case, a normal exit, a death by signal, a
failed wait, the job table and the job counter are exactly what they were. -/
theorem fork_and_exec_inserts_iff_background_or_stopped (s : State) (argv : List String)
    (argv_len : Nat) (in_symbol out_symbol : String) (in_path out_path : Option String)
    (env : Env) (last : String)
    (hlen : argv_len ≠ 0) (hlast : argv[argv_len - 1]? = some last) (hparent : 0 < env.fork) :
    ∃ argv0, (if last == "&" then argv.set (argv_len - 1) "" else argv).head? = some argv0 ∧
    (inserts (fork_and_exec s argv argv_len in_symbol out_symbol in_path out_path env).1.trace
        = inserts s.trace + 1 ↔
      (last = "&" ∨ ∃ sig, env.wait = some (.stopped sig))) ∧
    (inserts (fork_and_exec s argv argv_len in_symbol out_symbol in_path out_path env).1.trace
        = inserts s.trace ↔
      ¬ (last = "&" ∨ ∃ sig, env.wait = some (.stopped sig))) ∧
    (last = "&" →
      (fork_and_exec s argv argv_len in_symbol out_symbol in_path out_path env).1.j_list =
        if untracked s.j_list s.j_cnt env.fork then
          s.j_list ++ [⟨s.j_cnt, env.fork, .RUNNING, argv0⟩]
        else s.j_list) ∧
    (last ≠ "&" → ∀ sig, env.wait = some (.stopped sig) →
      (fork_and_exec s argv argv_len in_symbol out_symbol in_path out_path env).1.j_list =
        if untracked s.j_list s.j_cnt env.fork then
          s.j_list ++ [⟨s.j_cnt, env.fork, .STOPPED, argv0⟩]
        else s.j_list) ∧
    (¬ (last = "&" ∨ ∃ sig, env.wait = some (.stopped sig)) →
      (fork_and_exec s argv argv_len in_symbol out_symbol in_path out_path env).1.j_list
          = s.j_list ∧
      (fork_and_exec s argv argv_len in_symbol out_symbol in_path out_path env).1.j_cnt
          = s.j_cnt) := by
  obtain ⟨a0, ha0⟩ := head_after_set argv (argv_len - 1) last hlast (last == "&")
  refine ⟨a0, ha0, ?_⟩
  have h1 : env.fork ≠ -1 := by omega
  have h2 : env.fork ≠ 0 := by omega
  obtain ⟨l, c, tr, fl⟩ := s
  unfold fork_and_exec
  simp only [hlen, hlast, ha0, if_false]
  by_cases hb : last = "&"
  · by_cases hadd : (l.any fun j => j.jid == c || j.pid == env.fork) = true
    · rcases fl with _ | ⟨_ | _, bs⟩ <;>
        simp [hb, h1, h2, inserts, State.emit, Block.andThen, fork_and_exec_background,
          fork_and_exec_foreground, fork_and_exec_add_job, fflush, add_job, hadd,
          Event.isAddJob, untracked]
    · simp [hb, h1, h2, inserts, State.emit, Block.andThen, fork_and_exec_background,
          fork_and_exec_foreground, fork_and_exec_add_job, fflush, add_job, hadd,
          Event.isAddJob, untracked]
  · by_cases ht : env.tcsetpgrp_self = -1 <;> cases hw : env.wait with
    | none => simp [hb, h1, h2, inserts, State.emit, Block.andThen, fork_and_exec_background,
          fork_and_exec_foreground, fork_and_exec_add_job, hw, Event.isAddJob]
    | some st =>
      by_cases hadd : (l.any fun j => j.jid == c || j.pid == env.fork) = true
      · rcases fl with _ | ⟨_ | _, bs⟩ <;> cases st <;>
          simp [hb, h1, h2, ht, inserts, State.emit, Block.andThen,
            fork_and_exec_background, fork_and_exec_foreground, fork_and_exec_add_job,
            Block.seq, hw, WIFSIGNALED, WIFSTOPPED, fflush, add_job, hadd, Event.isAddJob,
            untracked]
      · cases st <;>
          simp [hb, h1, h2, ht, inserts, State.emit, Block.andThen,
            fork_and_exec_background, fork_and_exec_foreground, fork_and_exec_add_job,
            Block.seq, hw, WIFSIGNALED, WIFSTOPPED, fflush, add_job, hadd, Event.isAddJob,
            untracked]

/-- C6, at a concrete launch: `/bin/sleep 5 &` from the initial state makes one
call of `add_job`, and the table becomes the one record of job 1. -/
theorem fork_and_exec_inserts_iff_background_or_stopped_witness :
    inserts (fork_and_exec (State.init []) ["/bin/sleep", "5", "&"] 3 "" "" (some "")
      (some "") {}).1.trace = 1 ∧
    (fork_and_exec (State.init []) ["/bin/sleep", "5", "&"] 3 "" "" (some "")
      (some "") {}).1.j_list = [⟨1, 2, .RUNNING, "/bin/sleep"⟩] := by
  obtain ⟨argv0, h0, h⟩ := fork_and_exec_inserts_iff_background_or_stopped (State.init [])
    ["/bin/sleep", "5", "&"] 3 "" "" (some "") (some "") {} "&"
    (by decide) (by decide) (by decide)
  have hargv0 : argv0 = "/bin/sleep" := by
    have : some "/bin/sleep" = some argv0 := h0
    exact (Option.some.inj this).symm
  subst hargv0
  exact ⟨h.1.2 (Or.inl rfl), (h.2.2.1 rfl).trans (by decide)⟩

/-- C7, as stated, fails when the insert fails: with process id 100 still in the
table, a foreground launch that gets the process id 100 and is stopped by signal
20 prints the notification and calls `add_job`, but no Stopped record is inserted;
and when `fflush` fails as well, the function returns before `j_cnt++`. -/
theorem fork_and_exec_stopped_insert_can_fail :
    fork_and_exec
        { j_list := [⟨1, 100, .RUNNING, "/bin/sleep"⟩], j_cnt := 2, trace := [], flush := [] }
        ["/bin/cat"] 1 "" "" (some "") (some "")
        { fork := 100, wait := some (.stopped 20) } =
      ({ j_list := [⟨1, 100, .RUNNING, "/bin/sleep"⟩], j_cnt := 3,
         trace := [.fork 100, .waitpid 100, .out (.suspended_status 2 100 20),
                   .add_job 2 100 .STOPPED "/bin/cat", .err "ERROR : add_job failed.",
                   .tcsetpgrp 0 1],
         flush := [] }, .returned) ∧
    fork_and_exec
        { j_list := [⟨1, 100, .RUNNING, "/bin/sleep"⟩], j_cnt := 2, trace := [],
          flush := [false] }
        ["/bin/cat"] 1 "" "" (some "") (some "")
        { fork := 100, wait := some (.stopped 20) } =
      ({ j_list := [⟨1, 100, .RUNNING, "/bin/sleep"⟩], j_cnt := 2,
         trace := [.fork 100, .waitpid 100, .out (.suspended_status 2 100 20),
                   .add_job 2 100 .STOPPED "/bin/cat", .err "ERROR : add_job failed.",
                   .perror "fflush"],
         flush := [] }, .returned) := by
  constructor <;> decide

/-- C7, amended: for a foreground launch in the parent whose wait reports a stop,
when neither the job id `j_cnt` nor the process id of the child is in the table
already (so that the insert succeeds), `fork_and_exec` prints one suspended
notification with the job id `j_cnt`, calls `add_job` once, the table gains exactly
the record (`j_cnt`, child, Stopped, `argv[0]`) at its end, and `j_cnt` goes up by one. -/
theorem fork_and_exec_stopped_foreground (s : State) (argv : List String)
    (argv_len : Nat) (in_symbol out_symbol : String) (in_path out_path : Option String)
    (env : Env) (last : String) (sig : Int)
    (hlen : argv_len ≠ 0) (hlast : argv[argv_len - 1]? = some last) (hparent : 0 < env.fork)
    (hfg : last ≠ "&") (hw : env.wait = some (.stopped sig))
    (hfresh : ∀ j ∈ s.j_list, j.jid ≠ s.j_cnt ∧ j.pid ≠ env.fork) :
    ∃ argv0, argv.head? = some argv0 ∧
      fork_and_exec s argv argv_len in_symbol out_symbol in_path out_path env =
        ({ s with
           j_list := s.j_list ++ [⟨s.j_cnt, env.fork, .STOPPED, argv0⟩],
           j_cnt := s.j_cnt + 1,
           trace := s.trace ++
             [.fork env.fork, .waitpid env.fork, .out (.suspended_status s.j_cnt env.fork sig),
              .add_job s.j_cnt env.fork .STOPPED argv0, .tcsetpgrp 0 env.getpgid] ++
             (if env.tcsetpgrp_self = -1 then [.perror "tcsetpgrp"] else []) },
         .returned) := by
  obtain ⟨a0, ha0⟩ := head_after_set argv (argv_len - 1) last hlast (last == "&")
  have ha0' : argv.head? = some a0 := by simpa [hfg] using ha0
  refine ⟨a0, ha0', ?_⟩
  have h1 : env.fork ≠ -1 := by omega
  have h2 : env.fork ≠ 0 := by omega
  have hadd : ¬ (s.j_list.any fun j => j.jid == s.j_cnt || j.pid == env.fork) = true := by
    simp only [List.any_eq_true, Bool.or_eq_true, beq_iff_eq, not_exists, not_and, not_or]
    exact fun j hj => hfresh j hj
  have hres : add_job s.j_list s.j_cnt env.fork .STOPPED a0 =
      (0, s.j_list ++ [⟨s.j_cnt, env.fork, .STOPPED, a0⟩]) := by
    simp only [add_job, hadd]; rfl
  obtain ⟨l, c, tr, fl⟩ := s
  unfold fork_and_exec
  simp only [hlen, hlast, ha0, if_false]
  by_cases ht : env.tcsetpgrp_self = -1 <;>
    simp [State.emit, Block.andThen, Block.seq, WIFSIGNALED, WIFSTOPPED, WSTOPSIG, hres,
      fork_and_exec_foreground, fork_and_exec_add_job,
      h1, h2, hfg, hw, ht]

/-- C7, amended, at a concrete launch: `/bin/cat` run in the foreground from the
initial state and stopped by signal 20 becomes job 1. -/
theorem fork_and_exec_stopped_foreground_witness :
    ∃ argv0, ["/bin/cat"].head? = some argv0 ∧
      fork_and_exec (State.init []) ["/bin/cat"] 1 "" "" (some "") (some "")
          { fork := 100, wait := some (.stopped 20) } =
        ({ State.init [] with
           j_list := (State.init []).j_list ++ [⟨(State.init []).j_cnt, 100, .STOPPED, argv0⟩],
           j_cnt := (State.init []).j_cnt + 1,
           trace := (State.init []).trace ++
             [.fork 100, .waitpid 100, .out (.suspended_status (State.init []).j_cnt 100 20),
              .add_job (State.init []).j_cnt 100 .STOPPED argv0, .tcsetpgrp 0 1] ++
             (if (0 : Int) = -1 then [.perror "tcsetpgrp"] else []) },
         .returned) :=
  fork_and_exec_stopped_foreground (State.init []) ["/bin/cat"] 1 "" "" (some "") (some "")
    { fork := 100, wait := some (.stopped 20) } "/bin/cat" 20
    (by decide) (by decide) (by decide) (by decide) rfl (by simp [State.init])

/-! ## Records found by a key that no two records share -/

/-- A record of the list is the first one with its key when keys are not repeated. -/
theorem find_key_of_mem (k : Job → Int) (l : JobList) (j : Job)
    (hnd : (l.map k).Nodup) (hj : j ∈ l) :
    l.find? (fun x => k x == k j) = some j := by
  induction l with
  | nil => simp at hj
  | cons a rest ih =>
    rw [List.map_cons, List.nodup_cons] at hnd
    rcases List.mem_cons.mp hj with rfl | hmem
    · simp
    · have hne : k a ≠ k j := fun h => hnd.1 (h ▸ List.mem_map_of_mem k hmem)
      simp [List.find?_cons, hne, ih hnd.2 hmem]

/-- No record carries the key: the search finds nothing. -/
theorem find_key_none (k : Job → Int) (l : JobList) (v : Int)
    (h : ∀ x ∈ l, k x ≠ v) : l.find? (fun x => k x == v) = none := by
  simp only [List.find?_eq_none, beq_iff_eq]
  exact fun x hx => h x hx

/-- Setting the status of the first record with a key sets it for the records with
that key, when keys are not repeated. -/
theorem setFirst_key (k : Job → Int) (l : JobList) (v : Int) (st : ProcessState)
    (hnd : (l.map k).Nodup) :
    setFirst (fun x => k x == v) st l =
      l.map (fun x => if k x = v then { x with state := st } else x) := by
  induction l with
  | nil => rfl
  | cons a rest ih =>
    rw [List.map_cons, List.nodup_cons] at hnd
    by_cases h : k a = v
    · have hrest : ∀ x ∈ rest, k x ≠ v := fun x hx hxv =>
        hnd.1 (by rw [h, ← hxv]; exact List.mem_map_of_mem k hx)
      have hid : rest.map (fun x => if k x = v then { x with state := st } else x) = rest := by
        conv_rhs => rw [← List.map_id rest]
        exact List.map_congr_left fun x hx => by simp [hrest x hx]
      simp [setFirst, h, hid]
    · simp [setFirst, h, ih hnd.2]

/-- Removing the first record with a key removes the records with that key, when
keys are not repeated. -/
theorem removeFirst_key (k : Job → Int) (l : JobList) (v : Int)
    (hnd : (l.map k).Nodup) :
    removeFirst (fun x => k x == v) l = l.filter (fun x => k x != v) := by
  induction l with
  | nil => rfl
  | cons a rest ih =>
    rw [List.map_cons, List.nodup_cons] at hnd
    by_cases h : k a = v
    · have hrest : ∀ x ∈ rest, k x ≠ v := fun x hx hxv =>
        hnd.1 (by rw [h, ← hxv]; exact List.mem_map_of_mem k hx)
      have hid : rest.filter (fun x => k x != v) = rest :=
        List.filter_eq_self.mpr fun x hx => by simp [hrest x hx]
      simp [removeFirst, h, hid]
    · simp [removeFirst, h, ih hnd.2]

/-! ## The built-in `bg` -/

/-- C8: for an argument `%N` (a token that starts with `%` and whose rest `atoi`
reads as the `int` `N`): when the table, in which no job id is repeated, holds a record of
job `N` with process id `P`, `bg` sends one signal, `SIGCONT` to `-P`; when `kill`
succeeds the table is the old one with the status of job `N` set to Running and
`bg` returns, and when `kill` fails the table is as it was. When the lookup of `N`
fails no signal is sent and the table is as it was. -/
theorem bg_continues_process_group (s : State) (arg : String) (env : Env) (N : Int)
    (harg : arg.data.head? = some '%') (hN : atoi arg.data.tail = N) :
    (∀ P st command, (⟨N, P, st, command⟩ : Job) ∈ s.j_list →
        (s.j_list.map Job.jid).Nodup → 0 < P →
      kills (bg s ["bg", arg] env).1.trace = kills s.trace ++ [(-P, .SIGCONT)] ∧
      (env.kill ≠ -1 →
        bg s ["bg", arg] env =
          ({ s with j_list := withStatusOfJid s.j_list N .RUNNING,
                    trace := s.trace ++ [.kill (-P) .SIGCONT, .update_job_jid N .RUNNING] },
           .returned)) ∧
      (env.kill = -1 → (bg s ["bg", arg] env).1.j_list = s.j_list)) ∧
    (get_job_pid s.j_list N = -1 →
      kills (bg s ["bg", arg] env).1.trace = kills s.trace ∧
      (bg s ["bg", arg] env).1.j_list = s.j_list) := by
  constructor
  · intro P st command hmem hnd hP
    have hfind := find_key_of_mem Job.jid s.j_list _ hnd hmem
    have hpid : get_job_pid s.j_list N = P := by
      simp only [get_job_pid]
      simp only [] at hfind
      rw [hfind]
    have hP1 : P ≠ -1 := by omega
    have hany : (s.j_list.any fun j => j.jid == N) = true := by
      simp only [List.any_eq_true, beq_iff_eq]
      exact ⟨_, hmem, rfl⟩
    have hupd : update_job_jid s.j_list N .RUNNING = (0, withStatusOfJid s.j_list N .RUNNING) := by
      simp only [update_job_jid, hany, if_true, withStatusOfJid]
      rw [setFirst_key Job.jid s.j_list N .RUNNING hnd]
    obtain ⟨l, c, tr, fl⟩ := s
    refine ⟨?_, ?_, ?_⟩
    · by_cases hk : env.kill = -1
      · rcases fl with _ | ⟨_ | _, bs⟩ <;>
          simp [bg, harg, hN, hpid, hP1, hk, State.emit, fflush, kills, List.filterMap_append]
      · rcases fl with _ | ⟨_ | _, bs⟩ <;>
          simp [bg, harg, hN, hpid, hP1, hk, State.emit, hupd, kills, List.filterMap_append]
    · intro hk
      simp [bg, harg, hN, hpid, hP1, hk, State.emit, hupd]
    · intro hk
      rcases fl with _ | ⟨_ | _, bs⟩ <;>
        simp [bg, harg, hN, hpid, hP1, hk, State.emit, fflush]
  · intro hmiss
    obtain ⟨l, c, tr, fl⟩ := s
    rcases fl with _ | ⟨_ | _, bs⟩ <;>
      simp [bg, harg, hN, hmiss, State.emit, fflush, report, kills, List.filterMap_append]

/-- C8, at a concrete table: `bg %1` on the stopped job 1 of process 100. -/
theorem bg_continues_process_group_witness :
    bg { j_list := [⟨1, 100, .STOPPED, "/bin/sleep"⟩], j_cnt := 2, trace := [], flush := [] }
        ["bg", "%1"] {} =
      ({ j_list := [⟨1, 100, .RUNNING, "/bin/sleep"⟩], j_cnt := 2,
         trace := [.kill (-100) .SIGCONT, .update_job_jid 1 .RUNNING], flush := [] },
       .returned) :=
  ((bg_continues_process_group
      { j_list := [⟨1, 100, .STOPPED, "/bin/sleep"⟩], j_cnt := 2, trace := [], flush := [] }
      "%1" {} 1 (by decide) (by decide)).1 100 .STOPPED "/bin/sleep"
      (by decide) (by decide) (by decide)).2.1 (by decide)

/-- The job id of `bg` is the `int` that `atoi` returns: `bg %4294967297` reads the
job id 1 and continues job 1. -/
theorem bg_job_id_is_an_int :
    atoi "4294967297".data = 1 ∧
    bg { j_list := [⟨1, 100, .STOPPED, "/bin/sleep"⟩], j_cnt := 2, trace := [], flush := [] }
        ["bg", "%4294967297"] {} =
      ({ j_list := [⟨1, 100, .RUNNING, "/bin/sleep"⟩], j_cnt := 2,
         trace := [.kill (-100) .SIGCONT, .update_job_jid 1 .RUNNING], flush := [] },
       .returned) := by
  constructor <;> decide

/-! ## The sweep of `reap` -/

/-- Two records of a well-formed table with the same process id have the same job id,
and conversely. -/
theorem WellFormed.jid_eq_iff_pid_eq {l : JobList} (hwf : WellFormed l) {j x : Job}
    (hj : j ∈ l) (hx : x ∈ l) : x.jid = j.jid ↔ x.pid = j.pid := by
  constructor
  · intro h
    rw [List.inj_on_of_nodup_map hwf.jid_nodup hx hj h]
  · intro h
    rw [List.inj_on_of_nodup_map hwf.pid_nodup hx hj h]

/-- A change keeps the table well formed. -/
theorem WellFormed.applyChange {l : JobList} (hwf : WellFormed l) (c : Int × WStatus) :
    WellFormed (applyChange l c) := by
  have hfilter : ∀ p : Job → Bool, WellFormed (l.filter p) := fun p =>
    { jid_nodup := hwf.jid_nodup.sublist ((List.filter_sublist l).map _)
      pid_nodup := hwf.pid_nodup.sublist ((List.filter_sublist l).map _)
      jid_pos := fun j hj => hwf.jid_pos j (List.mem_of_mem_filter hj)
      pid_pos := fun j hj => hwf.pid_pos j (List.mem_of_mem_filter hj) }
  have hmap : ∀ st : ProcessState,
      WellFormed (l.map fun j => if j.pid = c.1 then { j with state := st } else j) := by
    intro st
    have e1 : (l.map fun j => if j.pid = c.1 then { j with state := st } else j).map Job.jid
        = l.map Job.jid := by
      rw [List.map_map]
      exact List.map_congr_left fun x _ => by simp only [Function.comp]; split <;> rfl
    have e2 : (l.map fun j => if j.pid = c.1 then { j with state := st } else j).map Job.pid
        = l.map Job.pid := by
      rw [List.map_map]
      exact List.map_congr_left fun x _ => by simp only [Function.comp]; split <;> rfl
    refine ⟨by rw [e1]; exact hwf.jid_nodup, by rw [e2]; exact hwf.pid_nodup, ?_, ?_⟩
    · intro j hj
      obtain ⟨x, hx, rfl⟩ := List.mem_map.mp hj
      have := hwf.jid_pos x hx
      split <;> simpa using this
    · intro j hj
      obtain ⟨x, hx, rfl⟩ := List.mem_map.mp hj
      have := hwf.pid_pos x hx
      split <;> simpa using this
  obtain ⟨w, status⟩ := c
  cases status
  · exact hfilter _
  · exact hfilter _
  · exact hmap _
  · exact hmap _

/-- One turn of the loop of `reap` for the process id of a record of a well-formed
table: no diagnostic, the notification and the table call for the job id of the
record, and the table changed as the specification says. -/
theorem reap_one_of_mem (s : State) (w : Int) (status : WStatus) (j : Job)
    (hwf : WellFormed s.j_list) (hj : j ∈ s.j_list) (hpid : j.pid = w) :
    reap_one s w status =
      ({ s with j_list := applyChange s.j_list (w, status),
                trace := s.trace ++ handling j.jid w status }, .returned) := by
  subst hpid
  have hjid : get_job_jid s.j_list j.pid = j.jid := by
    simp only [get_job_jid]
    rw [find_key_of_mem Job.pid s.j_list j hwf.pid_nodup hj]
  have hpos : ¬ j.jid < 0 := by have := hwf.jid_pos j hj; omega
  have hany : (s.j_list.any fun x => x.jid == j.jid) = true := by
    simp only [List.any_eq_true, beq_iff_eq]
    exact ⟨j, hj, rfl⟩
  have hrem : remove_job_jid s.j_list j.jid = (0, s.j_list.filter fun x => x.pid != j.pid) := by
    simp only [remove_job_jid, hany, if_true]
    rw [removeFirst_key Job.jid s.j_list j.jid hwf.jid_nodup]
    congr 1
    apply List.filter_congr
    intro x hx
    have := hwf.jid_eq_iff_pid_eq hj hx
    by_cases h : x.jid = j.jid
    · have h2 := this.mp h
      simp [bne, h, h2]
    · have h2 : ¬ x.pid = j.pid := fun h2 => h (this.mpr h2)
      simp [bne, h, h2]
  have hupd : ∀ st, update_job_jid s.j_list j.jid st =
      (0, s.j_list.map fun x => if x.pid = j.pid then { x with state := st } else x) := by
    intro st
    simp only [update_job_jid, hany, if_true]
    rw [setFirst_key Job.jid s.j_list j.jid st hwf.jid_nodup]
    congr 1
    apply List.map_congr_left
    intro x hx
    have := hwf.jid_eq_iff_pid_eq hj hx
    by_cases h : x.jid = j.jid
    · have h2 := this.mp h
      simp [h, h2]
    · have h2 : ¬ x.pid = j.pid := fun h2 => h (this.mpr h2)
      simp [h, h2]
  obtain ⟨l, c, tr, fl⟩ := s
  cases status <;>
    simp [reap_one, hjid, hpos, R.andThen, State.emit, WIFEXITED, WIFSIGNALED, WIFSTOPPED,
      WIFCONTINUED, WEXITSTATUS, WTERMSIG, WSTOPSIG, hrem, hupd, applyChange, handling]

/-- Setting the status of the records of one process id leaves the records of
another process id as they are. -/
theorem filter_map_status_other (l : JobList) (q p : Int) (st : ProcessState) (h : q ≠ p) :
    (l.map fun j => if j.pid = q then { j with state := st } else j).filter
      (fun j => j.pid == p) = l.filter (fun j => j.pid == p) := by
  induction l with
  | nil => rfl
  | cons a rest ih =>
    simp only [List.map_cons, List.filter_cons, ih]
    by_cases ha : a.pid = q
    · have hap : ¬ a.pid = p := fun h2 => h (ha.symm.trans h2)
      simp [ha, hap, h]
    · simp [ha]

/-- A change for another process id leaves the records of a process id as they are. -/
theorem applyChange_filter_other (l : JobList) (c : Int × WStatus) (p : Int) (h : c.1 ≠ p) :
    (applyChange l c).filter (fun j => j.pid == p) = l.filter (fun j => j.pid == p) := by
  have hfilter : (l.filter fun j => j.pid != c.1).filter (fun j => j.pid == p)
      = l.filter (fun j => j.pid == p) := by
    rw [List.filter_filter]
    apply List.filter_congr
    intro x _
    by_cases hx : x.pid = p
    · have : ¬ x.pid = c.1 := fun h2 => h (h2.symm.trans hx)
      simp [bne, hx, this, Ne.symm h]
    · simp [hx]
  have hmap : ∀ st : ProcessState,
      (l.map fun j => if j.pid = c.1 then { j with state := st } else j).filter
        (fun j => j.pid == p) = l.filter (fun j => j.pid == p) :=
    fun st => filter_map_status_other l c.1 p st h
  obtain ⟨w, status⟩ := c
  cases status
  · exact hfilter
  · exact hfilter
  · exact hmap _
  · exact hmap _

/-- The changes reported by the lines of one handled change. -/
theorem reported_handling (jid pid : Int) (status : WStatus) :
    reported (handling jid pid status) = [(pid, status)] := by
  cases status <;> rfl

/-- C9: on a well-formed table, for a sequence of pending changes each of which is
for a process id that has a job record when it is handled, `reap` returns; the job
table it leaves is the fold of the changes (exited or signaled removes the record
of the process id, stopped and continued set its status), the job counter is as it
was, the notifications it printed report exactly the changes of the sequence in
their order, each with one table call, no diagnostic is written, and the records
of a process id that no change names are as they were. -/
theorem reap_folds_changes (s : State) (changes : List (Int × WStatus))
    (hwf : WellFormed s.j_list) (htracked : tracked s.j_list changes = true) :
    (reap s changes).2 = .returned ∧
    (reap s changes).1.j_list = changes.foldl applyChange s.j_list ∧
    (reap s changes).1.j_cnt = s.j_cnt ∧
    reported (reap s changes).1.trace = reported s.trace ++ changes ∧
    (tableCalls (reap s changes).1.trace).length
      = (tableCalls s.trace).length + changes.length ∧
    diagnostics (reap s changes).1.trace = diagnostics s.trace ∧
    ∀ p, (∀ c ∈ changes, c.1 ≠ p) →
      (reap s changes).1.j_list.filter (fun j => j.pid == p)
        = s.j_list.filter (fun j => j.pid == p) := by
  induction changes generalizing s with
  | nil =>
    simp [reap, State.emit, reported, tableCalls, diagnostics, List.filterMap_append,
      List.filter_append]
  | cons c rest ih =>
    obtain ⟨w, status⟩ := c
    simp only [tracked, Bool.and_eq_true, List.any_eq_true, beq_iff_eq] at htracked
    obtain ⟨⟨j, hj, hpid⟩, hrest⟩ := htracked
    have hw : w > 0 := by have := hwf.pid_pos j hj; omega
    have hstep := reap_one_of_mem (s.emit (.waitpid (-1))) w status j hwf hj hpid
    have hwf2 := hwf.applyChange (w, status)
    have key : reap s ((w, status) :: rest) =
        reap { s with j_list := applyChange s.j_list (w, status),
                      trace := s.trace ++ [.waitpid (-1)] ++ handling j.jid w status } rest := by
      simp only [reap, hw, if_true, hstep, R.andThen]
      rfl
    rw [key]
    obtain ⟨h1, h2, h3, h4, h5, h6, h7⟩ :=
      ih { s with j_list := applyChange s.j_list (w, status),
                  trace := s.trace ++ [.waitpid (-1)] ++ handling j.jid w status } hwf2 hrest
    refine ⟨h1, by rw [h2]; rfl, h3, ?_, ?_, ?_, ?_⟩
    · rw [h4]
      have hr := reported_handling j.jid w status
      simp only [reported] at hr
      simp [reported, List.filterMap_append, hr]
    · rw [h5]
      cases status <;>
        simp [tableCalls, handling, List.filter_append] <;> omega
    · rw [h6]
      cases status <;> simp [diagnostics, handling, List.filter_append]
    · intro p hp
      rw [h7 p fun c hc => hp c (List.mem_cons_of_mem _ hc)]
      exact applyChange_filter_other s.j_list (w, status) p (hp (w, status) (List.mem_cons_self _ _))

/-- C9, at a concrete table: job 1 (process 100) is stopped, job 2 (process 101) is
continued, then job 1 exits; the sweep leaves job 2 alone in the table, Running. -/
theorem reap_folds_changes_witness :
    (reap { j_list := [⟨1, 100, .RUNNING, "/bin/sleep"⟩, ⟨2, 101, .STOPPED, "/bin/cat"⟩],
            j_cnt := 3, trace := [], flush := [] }
        [(100, .stopped 20), (101, .continued), (100, .exited 0)]).1.j_list
      = [⟨2, 101, .RUNNING, "/bin/cat"⟩] :=
  (reap_folds_changes
    { j_list := [⟨1, 100, .RUNNING, "/bin/sleep"⟩, ⟨2, 101, .STOPPED, "/bin/cat"⟩],
      j_cnt := 3, trace := [], flush := [] }
    [(100, .stopped 20), (101, .continued), (100, .exited 0)]
    ⟨by decide, by decide, by decide, by decide⟩ (by decide)).2.1.trans (by decide)

/-- C10: after the failed lookup `reap` writes its diagnostic and, having no
`continue`, goes on with the job id -1: for the exit of process 77, which has no
record, it prints the notification with the job id -1, calls `remove_job_jid` with
-1 and writes a second diagnostic for the failure of that call, where the claim has
no table call and one diagnostic. The handler `bg` returns after its failed lookup,
with one diagnostic and no table call. -/
theorem reap_untracked_two_diagnostics :
    reap (State.init []) [(77, .exited 0)] =
      ({ j_list := [], j_cnt := 1,
         trace := [.waitpid (-1), .err "ERROR : get_job_jid failed.",
                   .out (.terminated_exit (-1) 77 0), .remove_job_jid (-1),
                   .err "ERROR : remove_job_jid failed.", .waitpid (-1)],
         flush := [] }, .returned) ∧
    bg (State.init []) ["bg", "%5"] {} =
      ({ j_list := [], j_cnt := 1, trace := [.err "ERROR : get_job_pid failed."],
         flush := [] }, .returned) := by
  constructor <;> decide

/-- What `reap` does for every change of a process id `w > 0` that has no record,
in a table where no job id is -1 and with the next two calls of `fflush`
succeeding: it writes the diagnostic of the failed lookup, prints the notification
with the job id -1, calls the remove or update step with the job id -1, writes the
diagnostic of that failed call, leaves the job table and the job counter as they
were, and goes on with the rest of the sweep. -/
theorem reap_untracked_change (s : State) (w : Int) (status : WStatus)
    (rest : List (Int × WStatus))
    (hw : 0 < w) (hpid : ∀ j ∈ s.j_list, j.pid ≠ w) (hjid : ∀ j ∈ s.j_list, j.jid ≠ -1)
    (hflush : ∀ b ∈ s.flush.take 2, b = true) :
    reap s ((w, status) :: rest) =
      reap { s with
             trace := s.trace ++ [.waitpid (-1), .err "ERROR : get_job_jid failed."] ++
               handling (-1) w status ++ [.err (handlingFailure status)],
             flush := s.flush.drop 2 } rest := by
  have hlook : get_job_jid s.j_list w = -1 := by
    simp only [get_job_jid]
    rw [find_key_none Job.pid s.j_list w hpid]
  have hany : ¬ (s.j_list.any fun x => x.jid == -1) = true := by
    simp only [List.any_eq_true, beq_iff_eq, not_exists, not_and]
    exact hjid
  have hrem : remove_job_jid s.j_list (-1) = (-1, s.j_list) := by
    simp only [remove_job_jid, hany]; rfl
  have hupd : ∀ st, update_job_jid s.j_list (-1) st = (-1, s.j_list) := by
    intro st; simp only [update_job_jid, hany]; rfl
  obtain ⟨l, c, tr, fl⟩ := s
  simp only at hlook hrem hupd
  rcases fl with _ | ⟨b1, _ | ⟨b2, bs⟩⟩
  · cases status <;>
      simp [reap, reap_one, hw, hlook, hrem, hupd, R.andThen, State.emit, report, fflush,
        WIFEXITED, WIFSIGNALED, WIFSTOPPED, WIFCONTINUED, WEXITSTATUS, WTERMSIG, WSTOPSIG,
        handling, handlingFailure]
  · have hb1 : b1 = true := hflush b1 (by simp)
    subst hb1
    cases status <;>
      simp [reap, reap_one, hw, hlook, hrem, hupd, R.andThen, State.emit, report, fflush,
        WIFEXITED, WIFSIGNALED, WIFSTOPPED, WIFCONTINUED, WEXITSTATUS, WTERMSIG, WSTOPSIG,
        handling, handlingFailure]
  · have hb1 : b1 = true := hflush b1 (by simp)
    have hb2 : b2 = true := hflush b2 (by simp)
    subst hb1 hb2
    cases status <;>
      simp [reap, reap_one, hw, hlook, hrem, hupd, R.andThen, State.emit, report, fflush,
        WIFEXITED, WIFSIGNALED, WIFSTOPPED, WIFCONTINUED, WEXITSTATUS, WTERMSIG, WSTOPSIG,
        handling, handlingFailure]

/-- The sweep of `reap` at a concrete table: the stop of process 77, which has no
record, while job 1 is process 100. -/
theorem reap_untracked_change_at_stop :
    reap { j_list := [⟨1, 100, .RUNNING, "/bin/sleep"⟩], j_cnt := 2, trace := [], flush := [] }
        [(77, .stopped 20)] =
      ({ j_list := [⟨1, 100, .RUNNING, "/bin/sleep"⟩], j_cnt := 2,
         trace := [.waitpid (-1), .err "ERROR : get_job_jid failed.",
                   .out (.suspended_status (-1) 77 20), .update_job_jid (-1) .STOPPED,
                   .err "ERROR : update_job_jid failed.", .waitpid (-1)],
         flush := [] }, .returned) :=
  (reap_untracked_change
    { j_list := [⟨1, 100, .RUNNING, "/bin/sleep"⟩], j_cnt := 2, trace := [], flush := [] }
    77 (.stopped 20) [] (by decide) (by decide) (by decide) (by decide)).trans (by decide)

/-! ## The job counter and the job ids of a run -/

/-- Two quiet stretches make a quiet one. -/
theorem Quiet.trans {s x y : State} (h1 : Quiet s x) (h2 : Quiet x y) : Quiet s y :=
  ⟨h2.1.trans h1.1, h2.2.1.trans h1.2.1, h2.2.2.1.trans h1.2.2.1,
    h2.2.2.2.trans h1.2.2.2⟩

/-- A trace entry that is neither an acknowledgment line nor a call of `add_job`
keeps a stretch quiet. -/
theorem Quiet.emit {s x : State} (e : Event) (he : (acks [e], addIds [e]) = ([], []))
    (h : Quiet s x) : Quiet s (x.emit e) := by
  have he1 : acks [e] = [] := congrArg Prod.fst he
  have he2 : addIds [e] = [] := congrArg Prod.snd he
  refine ⟨h.1, ?_, h.2.2.1, ?_⟩
  · simp only [State.emit, acks, List.filterMap_append] at he1 ⊢
    rw [he1, List.append_nil]
    exact h.2.1
  · simp only [State.emit, addIds, List.filterMap_append] at he2 ⊢
    rw [he2, List.append_nil]
    exact h.2.2.2

/-- The call `fflush(stdout)` keeps a stretch quiet. -/
theorem Quiet.fflush {s x : State} (h : Quiet s x) : Quiet s (fflush x).2 := by
  refine ⟨?_, ?_, ?_, ?_⟩
  · rw [fflush_j_cnt]; exact h.1
  · rw [fflush_trace]; exact h.2.1
  · rw [fflush_j_list]; exact h.2.2.1
  · rw [fflush_trace]; exact h.2.2.2

/-- A diagnostic block keeps a stretch quiet. -/
theorem Quiet.report {s x : State} (msg : String) (h : Quiet s x) :
    Quiet s (report x msg).1 := by
  unfold Sh.report
  simp only []
  split
  · exact (h.emit _ (by rfl)).fflush
  · exact (((h.emit _ (by rfl)).fflush).emit _ (by rfl)).emit _ (by rfl)

/-- Assigning a job list without new job ids keeps a stretch quiet. -/
theorem Quiet.setJobs {s x : State} (l : JobList)
    (hl : l.map Job.jid ⊆ x.j_list.map Job.jid) (h : Quiet s x) : Quiet s (x.setJobs l) :=
  ⟨h.1, h.2.1, hl.trans h.2.2.1, h.2.2.2⟩

/-- Sequencing of quiet parts is quiet. -/
theorem Quiet.andThen {s : State} {r : R} {k : State → R} (h : Quiet s r.1)
    (hk : ∀ y, Quiet s y → Quiet s (k y).1) : Quiet s (R.andThen r k).1 := by
  unfold R.andThen
  split
  · exact hk _ h
  · exact h

/-- A quiet stretch after an assignment. -/
theorem Grows.trans_quiet {s x y : State} (h1 : Grows s x) (h2 : Quiet x y) : Grows s y := by
  obtain ⟨hadd, h1⟩ := h1
  refine ⟨by rw [h2.2.2.2]; exact hadd, ?_⟩
  rcases h1 with ⟨hc, ha, hl⟩ | ⟨hc, ha, hl⟩
  · exact Or.inl ⟨h2.1.trans hc, h2.2.1.trans ha, h2.2.2.1.trans hl⟩
  · refine Or.inr ⟨by rw [h2.1, hc], ?_, h2.2.2.1.trans hl⟩
    rw [h2.2.1]; exact ha

/-- C11: for a trailing `&`, `fork_and_exec` writes the string `"\0"`, the empty
string, over the last entry of `argv` instead of a null pointer: the vector that
the child passes to `execv` keeps its length, with an empty argument where the `&`
was. For `/bin/sleep 5 &` the child calls `execv` with `/bin/sleep`, `5` and the
empty string, and so it does for every program and arguments. -/
theorem fork_and_exec_passes_empty_argument_for_ampersand :
    fork_and_exec (State.init []) ["/bin/sleep", "5", "&"] 3 "" "" (some "") (some "")
        { fork := 0 } =
      ({ j_list := [], j_cnt := 1,
         trace := [.fork 0, .signal_default .SIGINT, .signal_default .SIGTSTP,
                   .signal_default .SIGTTOU, .setpgid 0 0,
                   .execv "/bin/sleep" ["/bin/sleep", "5", ""]],
         flush := [] }, .replaced) ∧
    ∀ (s : State) (prog : String) (args : List String),
      fork_and_exec s (prog :: (args ++ ["&"])) (args.length + 2) "" "" (some "") (some "")
          { fork := 0 } =
        ({ s with
           trace := s.trace ++
             [.fork 0, .signal_default .SIGINT, .signal_default .SIGTSTP,
              .signal_default .SIGTTOU, .setpgid 0 0,
              .execv prog (prog :: (args ++ [""]))] }, .replaced) := by
  constructor
  · decide
  · intro s prog args
    have hget : (prog :: (args ++ ["&"]))[args.length + 2 - 1]? = some "&" := by
      simp
    have hset : (prog :: (args ++ ["&"])).set (args.length + 2 - 1) "" =
        prog :: (args ++ [""]) := by
      simp
    unfold fork_and_exec
    simp only [hget, hset]
    simp +decide [fork_and_exec_child, restore_signals, R.andThen, Block.andThen, State.emit]

/-! ## The arguments that `redirection` hands to `fork_and_exec` -/

/-- The body of the loop of `redirection` for a token that is not a redirection
symbol: the token is stored unless it follows a symbol. -/
theorem redirection_step_plain (s : State) (v : RedirVars) (tok : String)
    (next : Option String) (h : isRedirection tok = false) :
    redirection_step s v tok next =
      (s, { v with argv := if v.argv_flag then v.argv else v.argv ++ [tok],
                   argv_flag := false }, .returned) := by
  simp only [isRedirection, Bool.or_eq_false_iff, beq_eq_false_iff_ne, ne_eq] at h
  obtain ⟨⟨h1, h2⟩, h3⟩ := h
  cases hf : v.argv_flag <;> simp [redirection_step, h1, h2, h3, hf]

/-- The body of the loop of `redirection` for a first `<` that is followed by a
token that is not a redirection symbol: no diagnostic. -/
theorem redirection_step_input (s : State) (v : RedirVars) (nx : String)
    (hv : v.in_flag = false) (hnx : isRedirection nx = false) :
    redirection_step s v "<" (some nx) =
      (s, { v with argv_flag := true, in_flag := true, in_symbol := "<",
                   in_path := some nx }, .returned) := by
  simp only [isRedirection, Bool.or_eq_false_iff, beq_eq_false_iff_ne, ne_eq] at hnx
  obtain ⟨⟨h1, h2⟩, h3⟩ := hnx
  simp +decide [redirection_step, redirection_input, redirection_output, hv, h1, h2, h3]

/-- The body of the loop of `redirection` for a first output symbol that is
followed by a token that is not a redirection symbol: no diagnostic. -/
theorem redirection_step_output (s : State) (v : RedirVars) (tok nx : String)
    (ht : isOutput tok = true) (hv : v.out_flag = false) (hnx : isRedirection nx = false) :
    redirection_step s v tok (some nx) =
      (s, { v with argv_flag := true, out_flag := true, out_symbol := tok,
                   out_path := some nx }, .returned) := by
  simp only [isRedirection, Bool.or_eq_false_iff, beq_eq_false_iff_ne, ne_eq] at hnx
  obtain ⟨⟨h1, h2⟩, h3⟩ := hnx
  simp only [isOutput, Bool.or_eq_true, beq_iff_eq] at ht
  rcases ht with rfl | rfl <;>
    simp +decide [redirection_step, redirection_input, redirection_output, hv, h1, h2, h3]

/-- A redirection symbol is the input symbol or an output symbol. -/
theorem isRedirection_eq (t : String) : isRedirection t = (isInput t || isOutput t) := by
  simp [isRedirection, isInput, isOutput, Bool.or_assoc]

/-- A token that is not a redirection symbol stays in the stripped list. -/
theorem withoutRedirections_cons_plain (t : String) (rest : List String)
    (h : isRedirection t = false) :
    withoutRedirections (t :: rest) = t :: withoutRedirections rest := by
  cases rest <;> simp [withoutRedirections, h]

/-- Well-placed redirections stay well placed without the first token. -/
theorem redirectionsHaveTargets_tail (t : String) (rest : List String)
    (h : redirectionsHaveTargets (t :: rest) = true) : redirectionsHaveTargets rest = true := by
  cases rest with
  | nil => rfl
  | cons u rest2 =>
    simp only [redirectionsHaveTargets, Bool.and_eq_true] at h
    exact h.2

/-- A well-placed redirection symbol is followed by a token that is not one. -/
theorem redirectionsHaveTargets_symbol (t : String) (rest : List String)
    (h : redirectionsHaveTargets (t :: rest) = true) (ht : isRedirection t = true) :
    ∃ nx rest2, rest = nx :: rest2 ∧ isRedirection nx = false := by
  cases rest with
  | nil => simp [redirectionsHaveTargets, ht] at h
  | cons u rest2 =>
    simp only [redirectionsHaveTargets, Bool.and_eq_true, ht, Bool.not_true, Bool.false_or,
      Bool.not_eq_true'] at h
    exact ⟨u, rest2, rfl, h.1⟩

/-- The loop of `redirection` over tokens whose redirections are well placed, with
at most one input and one output redirection, none of them repeating one already
seen: no diagnostic is written and the variables end as `RedirVars.after` says. -/
theorem redirection_loop_after (k : Nat) : ∀ (toks : List String), toks.length ≤ k →
    ∀ (n : Nat) (s : State) (v : RedirVars), toks.length ≤ n → v.argv_flag = false →
    redirectionsHaveTargets toks = true →
    (v.in_flag = true → toks.any isInput = false) →
    (v.out_flag = true → toks.any isOutput = false) →
    toks.countP isInput ≤ 1 → toks.countP isOutput ≤ 1 →
    redirection_loop n toks s v = (s, v.after toks, .returned) := by
  induction k with
  | zero =>
    intro toks hk n s v _ hflag _ _ _ _ _
    have : toks = [] := List.length_eq_zero.mp (Nat.le_zero.mp hk)
    subst this
    obtain ⟨a, b, c, d, e, f, g, h⟩ := v
    simp only at hflag
    subst hflag
    cases n <;> simp [redirection_loop, RedirVars.after, withoutRedirections]
  | succ k ih =>
    intro toks hk n s v hn hflag htargets hin hout hcin hcout
    cases toks with
    | nil =>
      obtain ⟨a, b, c, d, e, f, g, h⟩ := v
      simp only at hflag
      subst hflag
      cases n <;> simp [redirection_loop, RedirVars.after, withoutRedirections]
    | cons t rest =>
      obtain ⟨m, rfl⟩ : ∃ m, n = m + 1 := ⟨n - 1, by simp only [List.length_cons] at hn; omega⟩
      simp only [List.length_cons] at hk hn
      by_cases ht : isRedirection t = true
      · obtain ⟨nx, rest2, rfl, hnx⟩ := redirectionsHaveTargets_symbol t rest htargets ht
        simp only [List.length_cons] at hk hn
        obtain ⟨j, rfl⟩ : ∃ j, m = j + 1 := ⟨m - 1, by omega⟩
        have hnxi : isInput nx = false ∧ isOutput nx = false := by
          rw [isRedirection_eq] at hnx
          simpa using hnx
        have htargets2 : redirectionsHaveTargets rest2 = true :=
          redirectionsHaveTargets_tail nx rest2 (redirectionsHaveTargets_tail t _ htargets)
        by_cases hti : isInput t = true
        · have hteq : t = "<" := by simpa [isInput] using hti
          subst hteq
          have hto : isOutput "<" = false := by decide
          have hv : v.in_flag = false := by
            cases h : v.in_flag
            · rfl
            · have := hin h
              simp [hti] at this
          have h0 : List.countP isInput rest2 = 0 := by
            simp only [List.countP_cons, hti, hnxi.1, if_true] at hcin
            simpa using hcin
          have hall : ∀ a ∈ rest2, ¬ isInput a = true := List.countP_eq_zero.mp h0
          have hnone : rest2.any isInput = false := by simpa using hall
          have hfind : rest2.find? isInput = none := by
            rw [List.find?_eq_none]; exact hall
          rw [redirection_loop, List.head?_cons, redirection_step_input s v nx hv hnx]
          simp only []
          rw [redirection_loop, redirection_step_plain s _ nx rest2.head? hnx]
          simp only []
          refine (ih rest2 (by omega) j s _ (by omega) rfl htargets2 (fun _ => hnone)
            (fun h => ?_) ?_ ?_).trans ?_
          · have := hout h
            simpa [hto, hnxi.2] using this
          · rw [h0]; exact Nat.zero_le _
          · simpa [List.countP_cons, hto, hnxi.2] using hcout
          · simp [RedirVars.after, withoutRedirections, ht, hnone, hfind, hti, hto, hnxi.1,
              hnxi.2, tokenAfter, hv]
        · have hti : isInput t = false := by simpa using hti
          have hto : isOutput t = true := by
            rw [isRedirection_eq, hti] at ht
            simpa using ht
          have hv : v.out_flag = false := by
            cases h : v.out_flag
            · rfl
            · have := hout h
              simp [hto] at this
          have h0 : List.countP isOutput rest2 = 0 := by
            simp only [List.countP_cons, hto, hnxi.2, if_true] at hcout
            simpa using hcout
          have hall : ∀ a ∈ rest2, ¬ isOutput a = true := List.countP_eq_zero.mp h0
          have hnone : rest2.any isOutput = false := by simpa using hall
          have hfind : rest2.find? isOutput = none := by
            rw [List.find?_eq_none]; exact hall
          rw [redirection_loop, List.head?_cons, redirection_step_output s v t nx hto hv hnx]
          simp only []
          rw [redirection_loop, redirection_step_plain s _ nx rest2.head? hnx]
          simp only []
          refine (ih rest2 (by omega) j s _ (by omega) rfl htargets2 (fun h => ?_)
            (fun _ => hnone) ?_ ?_).trans ?_
          · have := hin h
            simpa [hti, hnxi.1] using this
          · simpa [List.countP_cons, hti, hnxi.1] using hcin
          · rw [h0]; exact Nat.zero_le _
          · simp [RedirVars.after, withoutRedirections, ht, hnone, hfind, hti, hto, hnxi.1,
              hnxi.2, tokenAfter, hv]
      · have ht : isRedirection t = false := by simpa using ht
        have hti : isInput t = false ∧ isOutput t = false := by
          rw [isRedirection_eq] at ht
          simpa using ht
        have hstep := redirection_step_plain s v t rest.head? ht
        rw [hflag] at hstep
        have hrec := ih rest (by omega) m s
          { v with argv := if false = true then v.argv else v.argv ++ [t], argv_flag := false }
          (by omega) rfl (redirectionsHaveTargets_tail t rest htargets)
          (fun h => by simpa [hti.1] using hin h)
          (fun h => by simpa [hti.2] using hout h)
          (by simpa [List.countP_cons, hti.1] using hcin)
          (by simpa [List.countP_cons, hti.2] using hcout)
        rw [redirection_loop, hstep]
        simp only []
        rw [hrec]
        simp [RedirVars.after, withoutRedirections_cons_plain t rest ht, hti.1, hti.2,
          tokenAfter]

/-- C12: for a token list that fits the array of `MAX_SIZE / 2` entries, with at
most one `<` and at most one of `>` and `>>`, each followed by a token that is not
a redirection symbol, the loop of `redirection` writes no diagnostic (it leaves the
state as it is and falls through to the call), and `fork_and_exec` is called with
the tokens without the redirection symbols and their targets, their number, the
symbol `<` and the token after it when present, the output symbol and the token
after it when present, and the empty string for the symbol of an absent
redirection. -/
theorem redirection_hands_over_stripped_arguments (s : State) (toks : List String)
    (env : Env) (hlen : toks.length ≤ MAX_SIZE / 2)
    (hin : toks.countP isInput ≤ 1) (hout : toks.countP isOutput ≤ 1)
    (htargets : redirectionsHaveTargets toks = true) :
    (redirection_loop (MAX_SIZE / 2) toks s {}).1 = s ∧
    (redirection_loop (MAX_SIZE / 2) toks s {}).2.2 = .returned ∧
    redirection s toks env =
      fork_and_exec s (withoutRedirections toks) (withoutRedirections toks).length
        (if toks.any isInput then "<" else "")
        ((toks.find? isOutput).getD "")
        (if toks.any isInput then tokenAfter isInput toks else some "")
        (if toks.any isOutput then tokenAfter isOutput toks else some "")
        env := by
  have hloop := redirection_loop_after (MAX_SIZE / 2) toks hlen (MAX_SIZE / 2) s {} hlen rfl
    htargets (fun h => by simp at h) (fun h => by simp at h) hin hout
  refine ⟨by rw [hloop], by rw [hloop], ?_⟩
  unfold redirection
  rw [hloop]
  simp [RedirVars.after]

/-- C12, at a concrete line: `/bin/cat < in -n >> out &`. -/
theorem redirection_hands_over_stripped_arguments_witness :
    redirection (State.init []) ["/bin/cat", "<", "in", "-n", ">>", "out", "&"] {} =
      fork_and_exec (State.init []) ["/bin/cat", "-n", "&"] 3 "<" ">>" (some "in") (some "out")
        {} :=
  (redirection_hands_over_stripped_arguments (State.init [])
    ["/bin/cat", "<", "in", "-n", ">>", "out", "&"] {}
    (by decide) (by decide) (by decide) (by decide)).2.2

/-! ## An empty argument vector -/

/-- The input block of the loop of `redirection` leaves `argv` as it is. -/
theorem redirection_input_argv (s : State) (v : RedirVars) (tok : String)
    (next : Option String) : (redirection_input s v tok next).2.1.argv = v.argv := by
  unfold redirection_input
  split <;> rfl

/-- The output block of the loop of `redirection` leaves `argv` as it is. -/
theorem redirection_output_argv (s : State) (v : RedirVars) (tok : String)
    (next : Option String) : (redirection_output s v tok next).2.1.argv = v.argv := by
  unfold redirection_output
  split <;> rfl

/-- The body of the loop of `redirection` only adds entries at the end of `argv`. -/
theorem redirection_step_argv (s : State) (v : RedirVars) (tok : String)
    (next : Option String) :
    ∃ extra, (redirection_step s v tok next).2.1.argv = v.argv ++ extra := by
  unfold redirection_step
  simp only []
  split
  · split
    · exact ⟨[tok], rfl⟩
    · exact ⟨[], by simp⟩
  · have h1 := redirection_input_argv s { v with argv_flag := true } tok next
    split
    · rename_i heq
      rw [heq] at h1
      refine ⟨[], ?_⟩
      rw [redirection_output_argv, h1]
      simp
    · exact ⟨[], by rw [h1]; simp⟩

/-- The loop of `redirection` only adds entries at the end of `argv`. -/
theorem redirection_loop_argv (n : Nat) : ∀ (toks : List String) (s : State) (v : RedirVars),
    ∃ extra, (redirection_loop n toks s v).2.1.argv = v.argv ++ extra := by
  induction n with
  | zero => intro toks s v; exact ⟨[], by simp [redirection_loop]⟩
  | succ n ih =>
    intro toks s v
    cases toks with
    | nil => exact ⟨[], by simp [redirection_loop]⟩
    | cons tok rest =>
      obtain ⟨e1, h1⟩ := redirection_step_argv s v tok rest.head?
      rw [redirection_loop]
      split
      · rename_i s2 v2 heq
        rw [heq] at h1
        obtain ⟨e2, h2⟩ := ih rest s2 v2
        exact ⟨e1 ++ e2, by rw [h2, h1, List.append_assoc]⟩
      · exact ⟨e1, h1⟩

/-- C13: for the line `< file`, whose first token is not a built-in name, the loop
of `redirection` stores nothing in `argv`, so `fork_and_exec` is called with
`argv_len = 0` and its first statement reads `argv[-1]`, outside the array; the
same happens for `> out`. When the first token is not a redirection symbol it is
the first entry of the vector that `redirection` has built. -/
theorem redirection_hands_over_empty_argv :
    redirection_loop (MAX_SIZE / 2) ["<", "file"] (State.init []) {} =
      (State.init [],
       { in_flag := true, argv := [], in_symbol := "<", in_path := some "file" },
       .returned) ∧
    commands (State.init []) ["<", "file"] {} = (State.init [], .undefined) ∧
    commands (State.init []) [">", "out"] {} = (State.init [], .undefined) ∧
    ∀ (s : State) (tok : String) (rest : List String), isRedirection tok = false →
      ((redirection_loop (MAX_SIZE / 2) (tok :: rest) s {}).2.1.argv).head? = some tok := by
  refine ⟨by decide, by decide, by decide, ?_⟩
  intro s tok rest htok
  have hstep := redirection_step_plain s {} tok rest.head? htok
  have h512 : MAX_SIZE / 2 = 511 + 1 := by decide
  rw [h512, redirection_loop, hstep]
  simp only []
  obtain ⟨extra, h⟩ := redirection_loop_argv 511 rest s
    { ({} : RedirVars) with
      argv := if ({} : RedirVars).argv_flag = true then ({} : RedirVars).argv
        else ({} : RedirVars).argv ++ [tok],
      argv_flag := false }
  rw [h]
  rfl

/-! ## The token array of `parse` -/

/-- Two tokens are at least one delimiter apart: twice the number of tokens is at
most the number of characters plus one (plus two while a token is being scanned). -/
theorem strtok_tokens_length (buf : List Char) : ∀ cur : List Char,
    2 * (strtok_tokens buf cur).length ≤ buf.length + (if cur.isEmpty then 1 else 2) := by
  induction buf with
  | nil =>
    intro cur
    cases cur <;> simp [strtok_tokens]
  | cons c cs ih =>
    intro cur
    simp only [strtok_tokens, List.length_cons]
    by_cases hc : isDelim c = true
    · have h := ih []
      simp only [List.isEmpty_nil, if_true] at h
      cases cur with
      | nil => simp only [hc, if_true, List.isEmpty_nil]; omega
      | cons a as =>
        simp only [hc, if_true, List.isEmpty_cons, Bool.false_eq_true, if_false,
          List.length_cons]
        omega
    · have h := ih (cur ++ [c])
      have hne : (cur ++ [c]).isEmpty = false := by cases cur <;> rfl
      rw [hne] at h
      simp only [Bool.false_eq_true, if_false] at h
      have hc2 : isDelim c = false := by simpa using hc
      simp only [hc2, Bool.false_eq_true, if_false]
      split <;> omega

/-- The loop of `parse` stays inside the array exactly when the tokens and the
null entry after them fit. -/
theorem parse_loop_eq (rest : List String) : ∀ (i : Nat) (toks : List String),
    parse_loop rest i toks =
      if i + rest.length < MAX_SIZE / 2 then some (toks ++ rest) else none := by
  induction rest with
  | nil => intro i toks; simp [parse_loop]
  | cons token rest ih =>
    intro i toks
    simp only [parse_loop, ih, List.length_cons, List.append_assoc, List.singleton_append]
    by_cases h1 : i < MAX_SIZE / 2
    · simp only [h1, if_true]
      by_cases h2 : i + 1 + rest.length < MAX_SIZE / 2
      · have h3 : i + (rest.length + 1) < MAX_SIZE / 2 := by omega
        simp [h2, h3]
      · have h3 : ¬ i + (rest.length + 1) < MAX_SIZE / 2 := by omega
        simp [h2, h3]
    · have h3 : ¬ i + (rest.length + 1) < MAX_SIZE / 2 := by omega
      simp [h1, h3]

set_option maxRecDepth 100000 in
/-- C14: a line of 1023 bytes, 512 times the letter `a` with one space between two
of them, has 512 tokens: `parse` stores them at the indices 0 to 511 and then
stores the null entry at `toks[512]`, outside the array of `MAX_SIZE / 2 = 512`
entries. A line of at most `MAX_SIZE` bytes never has more than 512 tokens, so
that it is only this last store that can leave the array, and with at most
`MAX_SIZE - 2` bytes every store is inside it. -/
theorem parse_stores_null_entry_outside_array :
    ('a' :: (List.replicate 511 [' ', 'a']).flatten).length = 1023 ∧
    (strtok_tokens ('a' :: (List.replicate 511 [' ', 'a']).flatten) []).length = 512 ∧
    parse (State.init []) ('a' :: (List.replicate 511 [' ', 'a']).flatten) {} =
      (State.init [], .undefined) ∧
    (∀ buff : List Char, buff.length ≤ MAX_SIZE →
      (strtok_tokens (buff.takeWhile (fun c => c != '\x00')) []).length ≤ MAX_SIZE / 2) ∧
    (∀ (buff : List Char) (token : String) (rest : List String),
      buff.length + 2 ≤ MAX_SIZE →
      strtok_tokens (buff.takeWhile (fun c => c != '\x00')) [] = token :: rest →
      parse_loop rest 1 [token] = some (token :: rest)) := by
  have hlen : ∀ buff : List Char,
      2 * (strtok_tokens (buff.takeWhile (fun c => c != '\x00')) []).length
        ≤ buff.length + 1 := by
    intro buff
    have h1 := strtok_tokens_length (buff.takeWhile (fun c => c != '\x00')) []
    have h2 := (List.takeWhile_sublist (fun c => c != '\x00') (l := buff)).length_le
    simp only [List.isEmpty_nil, if_true] at h1
    omega
  refine ⟨by decide, by decide, by decide, ?_, ?_⟩
  · intro buff hb
    have h := hlen buff
    simp only [MAX_SIZE] at hb ⊢
    omega
  · intro buff token rest hb htoks
    have h := hlen buff
    rw [htoks, List.length_cons] at h
    rw [parse_loop_eq]
    have h2 : 1 + rest.length < MAX_SIZE / 2 := by
      simp only [MAX_SIZE] at hb ⊢
      omega
    simp [h2]

end Sh
